import Mathlib

/-!
Verification of the douyin-web backend core against its specification.

The Python source is shallowly embedded: SQLAlchemy tables become lists of
records, SQL queries become list filters/joins with distinct counting via
`List.dedup`, Python `float` arithmetic is modelled by exact rationals (ℚ),
Python `int()` truncation and `round(x, 4)` (half-to-even) are modelled
explicitly, and `datetime` values are modelled as integers.
-/

namespace DouyinWeb

/-! ### Shared helpers: Python primitives -/

/-- Executable floor of a rational: `q.num / q.den` with euclidean integer
division (the denominator is positive, so this is the floor). -/
def ratFloor (q : ℚ) : ℤ := q.num / (q.den : ℤ)

/-- Python `int()` applied to a float/rational: truncation toward zero. -/
def pyInt (q : ℚ) : ℤ := if 0 ≤ q then ratFloor q else -(ratFloor (-q))

/-- Round to the nearest integer, ties to even — Python `round`'s rule,
with floats abstracted as exact rationals. -/
def roundHalfEven (q : ℚ) : ℤ :=
  let f := ratFloor q
  let r := q - (f : ℚ)
  if r < 1/2 then f
  else if 1/2 < r then f + 1
  else if f % 2 = 0 then f else f + 1

/-- Python `round(x, 4)` on a rational. -/
def round4 (q : ℚ) : ℚ := (roundHalfEven (q * 10000) : ℚ) / 10000

/-- SQL `COUNT(DISTINCT ...)` over a column extracted as a list. -/
def distinctCount (l : List String) : Nat := l.dedup.length

theorem ratFloor_eq_floor (q : ℚ) : ratFloor q = ⌊q⌋ := Rat.floor_def.symm

theorem pyInt_eq_floor {q : ℚ} (h : 0 ≤ q) : pyInt q = ⌊q⌋ := by
  rw [pyInt, if_pos h, ratFloor_eq_floor]

/-- Does `hay` start with `needle`? (helper for substring matching). -/
def startsWith : List Char → List Char → Bool
  | [], _ => true
  | _ :: _, [] => false
  | a :: as, b :: bs => a == b && startsWith as bs

/-- Does `hay` contain `needle` as a contiguous run? (SQL `contains` /
Python `in` on strings). -/
def containsSub (needle : List Char) : List Char → Bool
  | [] => startsWith needle []
  | c :: t => startsWith needle (c :: t) || containsSub needle t

/-- String containment: `sub in s` in Python, `column.contains(sub)` in SQL. -/
def strContains (s sub : String) : Bool := containsSub sub.data s.data

/-- Lexicographic comparison on character codes (the collation used to
model SQL `MAX` over a text column). -/
def charListLt : List Char → List Char → Bool
  | [], [] => false
  | [], _ :: _ => true
  | _ :: _, [] => false
  | a :: as, b :: bs => a.toNat < b.toNat || (a == b && charListLt as bs)

/-- Binary maximum of two strings. -/
def strMax (a b : String) : String := if charListLt a.data b.data then b else a

/-- SQL `MAX` over a text column (NULLs already filtered out). -/
def strMaxAgg : List String → Option String
  | [] => none
  | x :: t => some (t.foldl strMax x)

/-- Characters treated as whitespace by Python `str.strip` / `\s` (ASCII part). -/
def isPySpace (c : Char) : Bool :=
  c == ' ' || c == '\t' || c == '\n' || c == '\r' || c == Char.ofNat 11 || c == Char.ofNat 12

/-- Python `str.strip()`. -/
def pyStrip (s : String) : String :=
  String.mk (((s.data.dropWhile isPySpace).reverse.dropWhile isPySpace).reverse)

/-! ### `app/utils/sku_code.py` -/

/-- Find the first ASCII or full-width closing parenthesis and return the
suffix after it (used by the `[（(][^）)]*[）)]` regex substitution). -/
def afterClose : List Char → Option (List Char)
  | [] => none
  | c :: t => if c == ')' || c == '）' then some t else afterClose t

/-- Remove every `[（(][^）)]*[）)]` match, scanning left to right.  `fuel`
bounds the recursion; each step consumes at least one character, so
`fuel = length of the input` is exact. -/
def stripParens (fuel : Nat) (l : List Char) : List Char :=
  match fuel, l with
  | 0, l => l
  | _ + 1, [] => []
  | fuel + 1, c :: t =>
    if c == '(' || c == '（' then
      match afterClose t with
      | some rest => stripParens fuel rest
      | none => c :: stripParens fuel t
    else c :: stripParens fuel t

/-- Collapse runs of whitespace to a single space (`\s+` → `" "`). -/
def collapseWs : List Char → List Char
  | [] => []
  | c :: t =>
    if isPySpace c then ' ' :: collapseWs (t.dropWhile isPySpace)
    else c :: collapseWs t
termination_by l => l.length
decreasing_by
  all_goals simp only [List.length_cons, Nat.lt_succ_iff]
  · exact (List.dropWhile_sublist isPySpace).length_le
  · exact Nat.le_refl _

/-- `clean_sku_code`: strip tabs, strip, drop parenthesised suffixes,
collapse whitespace, strip again; empty or `"nan"` input gives `""`. -/
def clean_sku_code (raw : Option String) : String :=
  match raw with
  | none => ""
  | some raw =>
    let s := pyStrip (String.mk (raw.data.filter (fun c => !(c == '\t'))))
    if s = "" || s = "nan" then ""
    else
      let s2 := stripParens s.data.length s.data
      pyStrip (String.mk (collapseWs s2))

namespace Stats

/-! ### Data model used by `app/services/stats_service.py`
(the columns of `orders`, `order_skus` and `after_sales` that the
statistics queries read). -/

/-- A row of the `orders` table (fields read by the stats engine). -/
structure Order where
  order_id : String
  order_status : Int
  pay_time : Option Int
  is_signed : Bool
  deriving DecidableEq, Repr, Inhabited

/-- A row of the `order_skus` table. -/
structure OrderSku where
  order_id : String
  sku_code : Option String
  sku_name : Option String
  product_name : Option String
  deriving DecidableEq, Repr, Inhabited

/-- A row of the `after_sales` table (fields read by the stats engine). -/
structure AfterSale where
  aftersale_id : String
  order_id : Option String
  sku_code : Option String
  aftersale_type : Int
  aftersale_status : Int
  reason_text : String
  deriving DecidableEq, Repr, Inhabited

/-- The backing store as seen by the statistics queries. -/
structure DB where
  orders : List Order
  order_skus : List OrderSku
  after_sales : List AfterSale
  deriving DecidableEq, Repr, Inhabited

/-- The time window: `Order.pay_time >= start_ts` and, when an end date was
given, `Order.pay_time <= end_ts` (`start_date` always exists because
`calculate_sku_stats` defaults it to 90 days ago). -/
structure Window where
  start_ts : Int
  end_ts : Option Int
  deriving DecidableEq, Repr

/-- The `time_conditions` filter; a SQL comparison with a NULL `pay_time`
is not satisfied. -/
def inWindow (w : Window) (o : Order) : Bool :=
  match o.pay_time with
  | none => false
  | some t =>
    decide (w.start_ts ≤ t) &&
      (match w.end_ts with
       | none => true
       | some e => decide (t ≤ e))

/-- `OrderSku JOIN Order ON OrderSku.order_id == Order.order_id`. -/
def orderJoinRows (db : DB) : List (OrderSku × Order) :=
  db.order_skus.flatMap fun k =>
    (db.orders.filter fun o => k.order_id == o.order_id).map fun o => (k, o)

/-- `AfterSale JOIN Order ON AfterSale.order_id == Order.order_id`. -/
def aftersaleJoinRows (db : DB) : List (AfterSale × Order) :=
  db.after_sales.flatMap fun a =>
    (db.orders.filter fun o => a.order_id == some o.order_id).map fun o => (a, o)

/-- The triple join of the overlap query: additionally
`OrderSku.order_id == Order.order_id AND OrderSku.sku_code == AfterSale.sku_code`. -/
def overlapJoinRows (db : DB) : List (AfterSale × Order × OrderSku) :=
  (aftersaleJoinRows db).flatMap fun p =>
    (db.order_skus.filter fun k =>
        k.order_id == p.2.order_id && k.sku_code == p.1.sku_code).map
      fun k => (p.1, p.2, k)

/-- `DEFAULT_RETURN_RATE = 0.3`. -/
def DEFAULT_RETURN_RATE : ℚ := 3/10

/-- `MIN_ORDERS_FOR_RATE = 10`. -/
def MIN_ORDERS_FOR_RATE : Int := 10

/-- `QUALITY_REASON_TEXTS`. -/
def QUALITY_REASON_TEXTS : List String :=
  ["商品破损/包装问题", "商品与描述不符", "商品质量不好", "少件/漏发", "少件／漏发", "少件 / 漏发"]

/-- The quality-reason condition: exact membership in the canonical list or
a substring match against the five `contains` patterns. -/
def qualityReasonCond (t : String) : Bool :=
  QUALITY_REASON_TEXTS.contains t
    || strContains t "商品破损/包装问题"
    || strContains t "商品与描述不符"
    || strContains t "商品质量不好"
    || strContains t "少件/漏发"
    || strContains t "少件／漏发"

/-- Query 1, `pending_ship_count` label: distinct orders with status 2
among the window rows of a SKU group. -/
def pending_ship_count (db : DB) (w : Window) (s : String) : Nat :=
  distinctCount (((orderJoinRows db).filter fun p =>
    p.1.sku_code == some s && inWindow w p.2 && p.2.order_status == 2).map
      fun p => p.2.order_id)

/-- Query 1, `signed_count` label (superseded later by the union count, but
computed by the source). -/
def ordersku_signed_count (db : DB) (w : Window) (s : String) : Nat :=
  distinctCount (((orderJoinRows db).filter fun p =>
    p.1.sku_code == some s && inWindow w p.2 && p.2.is_signed).map
      fun p => p.2.order_id)

/-- Query 1, `in_transit_count` label: status 3 and not signed. -/
def in_transit_count (db : DB) (w : Window) (s : String) : Nat :=
  distinctCount (((orderJoinRows db).filter fun p =>
    p.1.sku_code == some s && inWindow w p.2
      && (p.2.order_status == 3 && p.2.is_signed == false)).map
      fun p => p.2.order_id)

/-- Query 2, `aftersale_pending_count`: after-sale status in {2, 3}. -/
def aftersale_pending_count (db : DB) (w : Window) (s : String) : Nat :=
  distinctCount (((aftersaleJoinRows db).filter fun p =>
    (p.1.aftersale_status == 2 || p.1.aftersale_status == 3)
      && p.1.sku_code == some s && inWindow w p.2).map
      fun p => p.2.order_id)

/-- Query 3, `signed_return_count`: signed order, after-sale type 1. -/
def signed_return_count (db : DB) (w : Window) (s : String) : Nat :=
  distinctCount (((aftersaleJoinRows db).filter fun p =>
    p.2.is_signed && p.1.aftersale_type == 1
      && p.1.sku_code == some s && inWindow w p.2).map
      fun p => p.2.order_id)

/-- Query 3.1, `aftersale_signed_count`: signed orders seen through the
`after_sales` table (set B of the union). -/
def aftersale_signed_count (db : DB) (w : Window) (s : String) : Nat :=
  distinctCount (((aftersaleJoinRows db).filter fun p =>
    p.2.is_signed && p.1.sku_code == some s && inWindow w p.2).map
      fun p => p.2.order_id)

/-- Query 4, `quality_return_count`. -/
def quality_return_count (db : DB) (w : Window) (s : String) : Nat :=
  distinctCount (((aftersaleJoinRows db).filter fun p =>
    p.1.sku_code == some s && qualityReasonCond p.1.reason_text && inWindow w p.2).map
      fun p => p.2.order_id)

/-- Query 5a, `signed_order_count`: signed orders seen through the
`order_skus` table (set A of the union). -/
def signed_from_ordersku (db : DB) (w : Window) (s : String) : Nat :=
  distinctCount (((orderJoinRows db).filter fun p =>
    p.2.is_signed && p.1.sku_code == some s && inWindow w p.2).map
      fun p => p.2.order_id)

/-- Query 5b, `signed_overlap_count`: signed orders present in both sources
(set A∩B of the union). -/
def signed_overlap_count (db : DB) (w : Window) (s : String) : Nat :=
  distinctCount (((overlapJoinRows db).filter fun p =>
    p.2.1.is_signed && p.1.sku_code == some s && inWindow w p.2.1).map
      fun p => p.2.1.order_id)

/-- `signed_sku_orders[sku] = max(a + b - c, 0)`: union count |A|+|B|−|A∩B|. -/
def signed_sku_orders (db : DB) (w : Window) (s : String) : Int :=
  max ((signed_from_ordersku db w s : Int) + (aftersale_signed_count db w s : Int)
        - (signed_overlap_count db w s : Int)) 0

/-- `func.max(OrderSku.sku_name)` over a SKU group (SQL MAX ignores NULLs). -/
def sku_name_agg (db : DB) (w : Window) (s : String) : Option String :=
  strMaxAgg (((orderJoinRows db).filter fun p =>
    p.1.sku_code == some s && inWindow w p.2).filterMap fun p => p.1.sku_name)

/-- `func.max(OrderSku.product_name)` over a SKU group. -/
def product_name_agg (db : DB) (w : Window) (s : String) : Option String :=
  strMaxAgg (((orderJoinRows db).filter fun p =>
    p.1.sku_code == some s && inWindow w p.2).filterMap fun p => p.1.product_name)

/-- Keys of the `order_stats` dict: SKUs with at least one window row
(the dict comprehension `if row.sku_code` also drops empty strings). -/
def order_stats_keys (db : DB) (w : Window) : List String :=
  (((orderJoinRows db).filter fun p =>
    p.1.sku_code.isSome && !(p.1.sku_code == some "")
      && inWindow w p.2).filterMap fun p => p.1.sku_code).dedup

/-- Keys of the `aftersale_stats` dict. -/
def aftersale_stats_keys (db : DB) (w : Window) : List String :=
  (((aftersaleJoinRows db).filter fun p =>
    (p.1.aftersale_status == 2 || p.1.aftersale_status == 3)
      && p.1.sku_code.isSome && !(p.1.sku_code == some "")
      && inWindow w p.2).filterMap fun p => p.1.sku_code).dedup

/-- Keys of the `return_stats` dict. -/
def return_stats_keys (db : DB) (w : Window) : List String :=
  (((aftersaleJoinRows db).filter fun p =>
    p.2.is_signed && p.1.aftersale_type == 1
      && p.1.sku_code.isSome && !(p.1.sku_code == some "")
      && inWindow w p.2).filterMap fun p => p.1.sku_code).dedup

/-- Keys of the `quality_stats` dict. -/
def quality_stats_keys (db : DB) (w : Window) : List String :=
  (((aftersaleJoinRows db).filter fun p =>
    p.1.sku_code.isSome && !(p.1.sku_code == some "")
      && qualityReasonCond p.1.reason_text && inWindow w p.2).filterMap
      fun p => p.1.sku_code).dedup

/-- Keys of the `aftersale_signed_stats` dict. -/
def aftersale_signed_keys (db : DB) (w : Window) : List String :=
  (((aftersaleJoinRows db).filter fun p =>
    p.2.is_signed && p.1.sku_code.isSome && !(p.1.sku_code == some "")
      && inWindow w p.2).filterMap
      fun p => p.1.sku_code).dedup

/-- `all_sku_codes`: the union of the five dicts' key sets. -/
def all_sku_codes (db : DB) (w : Window) : List String :=
  (order_stats_keys db w ++ aftersale_stats_keys db w ++ return_stats_keys db w
    ++ quality_stats_keys db w ++ aftersale_signed_keys db w).dedup

/-- The per-SKU dict appended to `stats_list` by `calculate_sku_stats`. -/
structure SkuStatRow where
  sku_id : String
  sku_code : String
  sku_name : Option String
  product_name : Option String
  pending_ship_count : Int
  aftersale_pending_count : Int
  signed_count : Int
  signed_return_count : Int
  estimated_return_rate : ℚ
  in_transit_count : Int
  in_transit_return_estimate : Int
  stock_gap : Int
  quality_return_count : Int
  quality_return_rate : ℚ
  last_calculated_at : Int
  deriving DecidableEq, Repr, Inhabited

/-- Lines 269–273: the estimated return rate before the 4-digit rounding
applied when the dict is built. -/
def computed_return_rate (db : DB) (w : Window) (s : String) : ℚ :=
  if MIN_ORDERS_FOR_RATE ≤ signed_sku_orders db w s then
    (signed_return_count db w s : ℚ) / ((signed_sku_orders db w s : ℤ) : ℚ)
  else DEFAULT_RETURN_RATE

/-- The loop body of `calculate_sku_stats` for one SKU code. -/
def mkRow (db : DB) (w : Window) (now : Int) (s : String) : SkuStatRow :=
  let pending : Int := pending_ship_count db w s
  let in_transit : Int := in_transit_count db w s
  let aftersale_pending : Int := aftersale_pending_count db w s
  let signed_return : Int := signed_return_count db w s
  let quality : Int := quality_return_count db w s
  let signed : Int := signed_sku_orders db w s
  let rate : ℚ := computed_return_rate db w s
  let quality_rate : ℚ := if 0 < signed then (quality : ℚ) / (signed : ℚ) else 0
  let itre : Int := pyInt ((in_transit : ℚ) * rate)
  { sku_id := s
    sku_code := s
    sku_name := sku_name_agg db w s
    product_name := product_name_agg db w s
    pending_ship_count := pending
    aftersale_pending_count := aftersale_pending
    signed_count := signed
    signed_return_count := signed_return
    estimated_return_rate := round4 rate
    in_transit_count := in_transit
    in_transit_return_estimate := itre
    stock_gap := pending - aftersale_pending - itre
    quality_return_count := quality
    quality_return_rate := round4 quality_rate
    last_calculated_at := now }

/-- `StatsService.calculate_sku_stats`: one stats dict per SKU code. -/
def calculate_sku_stats (db : DB) (w : Window) (now : Int) : List SkuStatRow :=
  (all_sku_codes db w).map (mkRow db w now)

/-! ### The `sku_stats` snapshot table, `save_sku_stats` and
`update_return_rate` -/

/-- A persisted row of the `sku_stats` table. -/
structure SkuStatsRec where
  sku_id : String
  sku_code : String
  sku_name : Option String
  product_name : Option String
  pending_ship_count : Int
  aftersale_pending_count : Int
  signed_count : Int
  signed_return_count : Int
  estimated_return_rate : ℚ
  is_rate_manual : Bool
  in_transit_count : Int
  in_transit_return_estimate : Int
  stock_gap : Int
  quality_return_count : Int
  quality_return_rate : ℚ
  last_calculated_at : Int
  deriving DecidableEq, Repr, Inhabited

/-- `select(SkuStats).where(SkuStats.sku_code == sku_code)` with
`scalar_one_or_none()`: `sku_code` carries a unique constraint, so the
first match models the single row. -/
def lookupSku : List SkuStatsRec → String → Option SkuStatsRec
  | [], _ => none
  | r :: rs, s => if r.sku_code == s then some r else lookupSku rs s

/-- Mutate the (unique) row with the given `sku_code` in place. -/
def updateFirstSku (s : String) (f : SkuStatsRec → SkuStatsRec) :
    List SkuStatsRec → List SkuStatsRec
  | [] => []
  | r :: rs => if r.sku_code == s then f r :: rs else r :: updateFirstSku s f rs

/-- The model-level defaults of a freshly constructed `SkuStats(...)` ORM
object (column defaults). -/
def skuStatsDefaults (s : String) : SkuStatsRec :=
  { sku_id := s, sku_code := s, sku_name := none, product_name := none,
    pending_ship_count := 0, aftersale_pending_count := 0, signed_count := 0,
    signed_return_count := 0, estimated_return_rate := 3/10, is_rate_manual := false,
    in_transit_count := 0, in_transit_return_estimate := 0, stock_gap := 0,
    quality_return_count := 0, quality_return_rate := 0, last_calculated_at := 0 }

/-- Lines 347–373 of `save_sku_stats`: the fields written on every save,
with the derived fields recomputed from `final_return_rate`. -/
def applyCommon (now : Int) (st : SkuStatRow) (r : SkuStatsRec) : SkuStatsRec :=
  let final_return_rate :=
    if r.is_rate_manual then r.estimated_return_rate else st.estimated_return_rate
  let itre := pyInt ((st.in_transit_count : ℚ) * final_return_rate)
  { r with
    sku_name := st.sku_name
    product_name := st.product_name
    pending_ship_count := st.pending_ship_count
    aftersale_pending_count := st.aftersale_pending_count
    signed_count := st.signed_count
    signed_return_count := st.signed_return_count
    in_transit_count := st.in_transit_count
    in_transit_return_estimate := itre
    stock_gap := st.pending_ship_count - st.aftersale_pending_count - itre
    quality_return_count := st.quality_return_count
    quality_return_rate := st.quality_return_rate
    last_calculated_at := now }

/-- One iteration of the `save_sku_stats` loop: upsert one snapshot.  An
existing row keeps its return rate when `is_rate_manual` is set; a new row
gets the computed rate written explicitly (line 344). -/
def saveOne (now : Int) (store : List SkuStatsRec) (st : SkuStatRow) : List SkuStatsRec :=
  match lookupSku store st.sku_code with
  | some _ =>
    updateFirstSku st.sku_code
      (fun r =>
        applyCommon now st
          (if r.is_rate_manual then r
           else { r with estimated_return_rate := st.estimated_return_rate }))
      store
  | none =>
    store ++ [applyCommon now st
      { skuStatsDefaults st.sku_code with estimated_return_rate := st.estimated_return_rate }]

/-- `StatsService.save_sku_stats` (the returned count is just the length of
`stats_list`; only the final store state is modelled). -/
def save_sku_stats (store : List SkuStatsRec) (stats_list : List SkuStatRow)
    (now : Int) : List SkuStatsRec :=
  stats_list.foldl (saveOne now) store

/-- The `final_return_rate` that `save_sku_stats` uses for the row of
`st.sku_code` (lines 350–354): the stored manual rate if the override flag
is set, else the freshly computed rate. -/
def effectiveRate (store : List SkuStatsRec) (st : SkuStatRow) : ℚ :=
  match lookupSku store st.sku_code with
  | some r => if r.is_rate_manual then r.estimated_return_rate else st.estimated_return_rate
  | none => st.estimated_return_rate

/-- `StatsService.update_return_rate`: set the rate manually, mark the
override flag and recompute the dependent derived fields. -/
def update_return_rate (store : List SkuStatsRec) (s : String) (rate : ℚ) :
    List SkuStatsRec × Bool :=
  match lookupSku store s with
  | none => (store, false)
  | some _ =>
    (updateFirstSku s
      (fun r =>
        let itre := pyInt ((r.in_transit_count : ℚ) * rate)
        { r with
          estimated_return_rate := rate
          is_rate_manual := true
          in_transit_return_estimate := itre
          stock_gap := r.pending_ship_count - r.aftersale_pending_count - itre })
      store, true)

/-! ### Lemmas about the distinct counts -/

theorem distinctCount_mono {l1 l2 : List String} (h : l1 ⊆ l2) :
    distinctCount l1 ≤ distinctCount l2 := by
  have h1 : l1.toFinset ⊆ l2.toFinset := by
    intro x hx
    simp only [List.mem_toFinset] at hx ⊢
    exact h hx
  have h2 := Finset.card_le_card h1
  simpa [distinctCount, ← List.card_toFinset] using h2

theorem mem_orderJoinRows {db : DB} {p : OrderSku × Order} :
    p ∈ orderJoinRows db ↔
      p.1 ∈ db.order_skus ∧ p.2 ∈ db.orders ∧ p.1.order_id = p.2.order_id := by
  cases p with
  | mk k o =>
    simp only [orderJoinRows, List.mem_flatMap, List.mem_map, List.mem_filter,
      beq_iff_eq, Prod.mk.injEq]
    aesop

theorem mem_aftersaleJoinRows {db : DB} {p : AfterSale × Order} :
    p ∈ aftersaleJoinRows db ↔
      p.1 ∈ db.after_sales ∧ p.2 ∈ db.orders ∧ p.1.order_id = some p.2.order_id := by
  cases p with
  | mk a o =>
    simp only [aftersaleJoinRows, List.mem_flatMap, List.mem_map, List.mem_filter,
      beq_iff_eq, Prod.mk.injEq]
    aesop

theorem mem_overlapJoinRows {db : DB} {t : AfterSale × Order × OrderSku} :
    t ∈ overlapJoinRows db ↔
      t.1 ∈ db.after_sales ∧ t.2.1 ∈ db.orders ∧ t.2.2 ∈ db.order_skus ∧
        t.1.order_id = some t.2.1.order_id ∧ t.2.2.order_id = t.2.1.order_id ∧
        t.2.2.sku_code = t.1.sku_code := by
  cases t with
  | mk a q =>
    cases q with
    | mk o k =>
      simp only [overlapJoinRows, List.mem_flatMap, List.mem_map, List.mem_filter,
        Bool.and_eq_true, beq_iff_eq, Prod.mk.injEq]
      constructor
      · rintro ⟨⟨a', o'⟩, hmem, k', ⟨hk', hko, hks⟩, heq⟩
        obtain ⟨h1, h2, rfl⟩ := heq
        obtain ⟨ha, ho, hao⟩ := mem_aftersaleJoinRows.mp hmem
        subst h1
        subst h2
        exact ⟨ha, ho, hk', hao, hko, hks⟩
      · rintro ⟨ha, ho, hk, hao, hko, hks⟩
        exact ⟨(a, o), mem_aftersaleJoinRows.mpr ⟨ha, ho, hao⟩, k, ⟨hk, hko, hks⟩,
          rfl, rfl, rfl⟩

/-- Returned signed orders (per SKU) are a subset of set B of the union:
dropping the `aftersale_type == 1` conjunct only widens the row set. -/
theorem signed_return_le_aftersale_signed (db : DB) (w : Window) (s : String) :
    signed_return_count db w s ≤ aftersale_signed_count db w s := by
  apply distinctCount_mono
  intro x hx
  simp only [List.mem_map, List.mem_filter, Bool.and_eq_true] at hx ⊢
  obtain ⟨p, ⟨hp, hcond⟩, rfl⟩ := hx
  obtain ⟨⟨⟨hsig, _⟩, hsku⟩, hw⟩ := hcond
  exact ⟨p, ⟨hp, ⟨hsig, hsku⟩, hw⟩, rfl⟩

/-- The overlap count (set A∩B) is bounded by set A: every overlap row
exhibits an `order_skus` row witnessing membership in A. -/
theorem signed_overlap_le_signed_from_ordersku (db : DB) (w : Window) (s : String) :
    signed_overlap_count db w s ≤ signed_from_ordersku db w s := by
  apply distinctCount_mono
  intro x hx
  simp only [List.mem_map, List.mem_filter, Bool.and_eq_true] at hx ⊢
  obtain ⟨t, ⟨ht, hcond⟩, rfl⟩ := hx
  obtain ⟨⟨hsig, hsku⟩, hw⟩ := hcond
  obtain ⟨_, ho, hk, _, hko, hks⟩ := mem_overlapJoinRows.mp ht
  refine ⟨(t.2.2, t.2.1), ⟨mem_orderJoinRows.mpr ⟨hk, ho, hko⟩, ⟨hsig, ?_⟩, hw⟩, rfl⟩
  simp only [beq_iff_eq] at hsku ⊢
  rw [hks]
  exact hsku

/-! ### Concrete stores used by witnesses -/

/-- A tiny database: one signed, paid order of SKU `"S"` with a
return-refund after-sale record. -/
def dbC1 : DB :=
  { orders := [{ order_id := "o1", order_status := 5, pay_time := some 1, is_signed := true }]
    order_skus := [{ order_id := "o1", sku_code := some "S", sku_name := some "n",
                     product_name := some "n" }]
    after_sales := [{ aftersale_id := "a1", order_id := some "o1", sku_code := some "S",
                      aftersale_type := 1, aftersale_status := 5,
                      reason_text := "七天无理由" }] }

/-- The unbounded window starting at time 0. -/
def wAll : Window := { start_ts := 0, end_ts := none }

/-- The single row `calculate_sku_stats` produces on `dbC1`. -/
def rowC1 : SkuStatRow := mkRow dbC1 wAll 0 "S"

/-- On `dbC1` the engine produces exactly the one row for SKU `"S"`. -/
theorem calc_dbC1_eq : calculate_sku_stats dbC1 wAll 0 = [rowC1] := rfl

example : rowC1.signed_count = 1 ∧ rowC1.signed_return_count = 1 := by decide

end Stats

namespace Stats

/-- C1: in every row produced by `calculate_sku_stats`, the signed order
count — the union `|A| + |B| − |A∩B|` of orders signed via order-lines and
orders signed via after-sale records over the same time window — is at
least the signed-return count of that SKU. -/
theorem calculate_sku_stats_signed_ge_return (db : DB) (w : Window) (now : Int)
    (row : SkuStatRow) (hrow : row ∈ calculate_sku_stats db w now) :
    row.signed_return_count ≤ row.signed_count := by
  obtain ⟨s, _, rfl⟩ := List.mem_map.mp hrow
  have hfields : (mkRow db w now s).signed_return_count = (signed_return_count db w s : Int) ∧
      (mkRow db w now s).signed_count = signed_sku_orders db w s := by
    constructor <;> rfl
  rw [hfields.1, hfields.2]
  have h1 := signed_return_le_aftersale_signed db w s
  have h2 := signed_overlap_le_signed_from_ordersku db w s
  unfold signed_sku_orders
  have h3 : (signed_return_count db w s : Int) ≤
      (signed_from_ordersku db w s : Int) + (aftersale_signed_count db w s : Int)
        - (signed_overlap_count db w s : Int) := by
    omega
  exact le_trans h3 (le_max_left _ _)

/-- C1 witness: the theorem applied to the concrete store `dbC1`. -/
theorem calculate_sku_stats_signed_ge_return_witness :
    rowC1.signed_return_count ≤ rowC1.signed_count :=
  calculate_sku_stats_signed_ge_return dbC1 wAll 0 rowC1
    (by rw [calc_dbC1_eq]; exact List.mem_singleton.mpr rfl)

/-! ### C3: the return-rate policy -/

theorem roundHalfEven_intCast (n : ℤ) : roundHalfEven (n : ℚ) = n := by
  unfold roundHalfEven
  rw [ratFloor_eq_floor]
  norm_num

/-- The default rate survives the 4-digit rounding. -/
theorem round4_default : round4 DEFAULT_RETURN_RATE = 3/10 := by
  have h : DEFAULT_RETURN_RATE * 10000 = ((3000 : ℤ) : ℚ) := by
    norm_num [DEFAULT_RETURN_RATE]
  rw [round4, h, roundHalfEven_intCast]
  norm_num

/-- C3 (amended): in every row of `calculate_sku_stats`, if the signed
order count is at least 10 the estimated return rate is
`signed_return_count / signed_count` rounded half-to-even to 4 decimal
places; if it is below 10 the rate is exactly the default 0.3. -/
theorem calculate_sku_stats_return_rate_policy (db : DB) (w : Window) (now : Int)
    (row : SkuStatRow) (hrow : row ∈ calculate_sku_stats db w now) :
    (10 ≤ row.signed_count →
      row.estimated_return_rate =
        round4 ((row.signed_return_count : ℚ) / (row.signed_count : ℚ))) ∧
    (row.signed_count < 10 → row.estimated_return_rate = 3/10) := by
  obtain ⟨s, _, rfl⟩ := List.mem_map.mp hrow
  have hsc : (mkRow db w now s).signed_count = signed_sku_orders db w s := rfl
  have hsr : (mkRow db w now s).signed_return_count = (signed_return_count db w s : Int) := rfl
  have hrate : (mkRow db w now s).estimated_return_rate =
      round4 (computed_return_rate db w s) := rfl
  rw [hsc, hsr, hrate]
  unfold computed_return_rate MIN_ORDERS_FOR_RATE
  constructor
  · intro h10
    rw [if_pos h10]
    norm_num
  · intro hlt
    rw [if_neg (by omega)]
    exact round4_default

/-! ### Lemmas about the snapshot store operations -/

theorem lookupSku_updateFirstSku_self {store : List SkuStatsRec} {s : String}
    {r : SkuStatsRec} (f : SkuStatsRec → SkuStatsRec)
    (h : lookupSku store s = some r) (hf : (f r).sku_code = r.sku_code) :
    lookupSku (updateFirstSku s f store) s = some (f r) := by
  induction store with
  | nil => simp [lookupSku] at h
  | cons x xs ih =>
    by_cases hx : (x.sku_code == s) = true
    · simp only [lookupSku, if_pos hx, Option.some.injEq] at h
      subst h
      have hfx : ((f x).sku_code == s) = true := by
        rw [beq_iff_eq] at hx ⊢
        rw [hf, hx]
      simp [updateFirstSku, lookupSku, hx, hfx]
    · simp only [lookupSku, if_neg hx] at h
      simp [updateFirstSku, lookupSku, hx, ih h]

theorem lookupSku_updateFirstSku_ne {store : List SkuStatsRec} {s s' : String}
    (f : SkuStatsRec → SkuStatsRec) (hf : ∀ x, (f x).sku_code = x.sku_code)
    (hne : s' ≠ s) :
    lookupSku (updateFirstSku s f store) s' = lookupSku store s' := by
  induction store with
  | nil => simp [updateFirstSku]
  | cons x xs ih =>
    by_cases hx : (x.sku_code == s) = true
    · rw [beq_iff_eq] at hx
      have hx1 : ((f x).sku_code == s') = false := by
        rw [hf, hx]
        exact beq_eq_false_iff_ne.mpr (Ne.symm hne)
      have hx2 : (x.sku_code == s') = false := by
        rw [hx]
        exact beq_eq_false_iff_ne.mpr (Ne.symm hne)
      simp only [updateFirstSku, if_pos (beq_iff_eq.mpr hx), lookupSku, hx1, hx2,
        Bool.false_eq_true, if_false]
    · simp only [updateFirstSku, if_neg hx, lookupSku, ih]

theorem lookupSku_append_of_some {l1 l2 : List SkuStatsRec} {s : String}
    {r : SkuStatsRec} (h : lookupSku l1 s = some r) :
    lookupSku (l1 ++ l2) s = some r := by
  induction l1 with
  | nil => simp [lookupSku] at h
  | cons x xs ih =>
    by_cases hx : (x.sku_code == s) = true
    · simp only [lookupSku, if_pos hx, Option.some.injEq] at h
      subst h
      simp [lookupSku, hx]
    · simp only [lookupSku, if_neg hx] at h
      simp [lookupSku, hx, ih h]

theorem lookupSku_append_of_none {l1 l2 : List SkuStatsRec} {s : String}
    (h : lookupSku l1 s = none) :
    lookupSku (l1 ++ l2) s = lookupSku l2 s := by
  induction l1 with
  | nil => simp
  | cons x xs ih =>
    by_cases hx : (x.sku_code == s) = true
    · simp [lookupSku, hx] at h
    · simp only [lookupSku, if_neg hx] at h
      simp [lookupSku, hx, ih h]

theorem applyCommon_sku_code (now : Int) (st : SkuStatRow) (r : SkuStatsRec) :
    (applyCommon now st r).sku_code = r.sku_code := rfl

/-- The per-row rate-override step of the `save_sku_stats` loop body. -/
def rateStep (st : SkuStatRow) (r : SkuStatsRec) : SkuStatsRec :=
  if r.is_rate_manual then r else { r with estimated_return_rate := st.estimated_return_rate }

theorem lookupSku_saveOne_self_found {store : List SkuStatsRec} {st : SkuStatRow}
    {r : SkuStatsRec} (now : Int) (h : lookupSku store st.sku_code = some r) :
    lookupSku (saveOne now store st) st.sku_code =
      some (applyCommon now st (rateStep st r)) := by
  unfold saveOne
  rw [h]
  apply lookupSku_updateFirstSku_self _ h
  by_cases hm : r.is_rate_manual <;> simp [hm, rateStep, applyCommon]

theorem lookupSku_saveOne_self_new {store : List SkuStatsRec} {st : SkuStatRow}
    (now : Int) (h : lookupSku store st.sku_code = none) :
    lookupSku (saveOne now store st) st.sku_code =
      some (applyCommon now st
        { skuStatsDefaults st.sku_code with
            estimated_return_rate := st.estimated_return_rate }) := by
  unfold saveOne
  rw [h, lookupSku_append_of_none h]
  simp [lookupSku, applyCommon, skuStatsDefaults]

theorem lookupSku_saveOne_ne {store : List SkuStatsRec} {st : SkuStatRow}
    {s : String} (now : Int) (hne : s ≠ st.sku_code) :
    lookupSku (saveOne now store st) s = lookupSku store s := by
  unfold saveOne
  cases hl : lookupSku store st.sku_code with
  | some r =>
    apply lookupSku_updateFirstSku_ne _ _ hne
    intro x
    by_cases hm : x.is_rate_manual <;> simp [hm, applyCommon]
  | none =>
    cases hs : lookupSku store s with
    | some r => exact lookupSku_append_of_some hs
    | none =>
      rw [lookupSku_append_of_none hs]
      have hcond : ((applyCommon now st
          { skuStatsDefaults st.sku_code with
              estimated_return_rate := st.estimated_return_rate }).sku_code == s) = false := by
        have hsk : (applyCommon now st
            { skuStatsDefaults st.sku_code with
                estimated_return_rate := st.estimated_return_rate }).sku_code = st.sku_code := rfl
        rw [hsk]
        exact beq_eq_false_iff_ne.mpr (Ne.symm hne)
      simp [lookupSku, hcond]

theorem lookupSku_save_untouched {store : List SkuStatsRec} {l : List SkuStatRow}
    {s : String} (now : Int) (h : ∀ st ∈ l, st.sku_code ≠ s) :
    lookupSku (List.foldl (saveOne now) store l) s = lookupSku store s := by
  induction l generalizing store with
  | nil => rfl
  | cons x xs ih =>
    rw [List.foldl_cons, ih (fun st hst => h st (List.mem_cons_of_mem _ hst)),
      lookupSku_saveOne_ne now (Ne.symm (h x (List.mem_cons_self _ _)))]

/-- The row of `st.sku_code` after a full `save_sku_stats` run whose stats
list contains `st` as its unique entry for that SKU. -/
theorem lookupSku_save_found {store : List SkuStatsRec} {l1 l2 : List SkuStatRow}
    {st : SkuStatRow} {r : SkuStatsRec} (now : Int)
    (h : lookupSku store st.sku_code = some r)
    (h1 : ∀ x ∈ l1, x.sku_code ≠ st.sku_code) (h2 : ∀ x ∈ l2, x.sku_code ≠ st.sku_code) :
    lookupSku (save_sku_stats store (l1 ++ st :: l2) now) st.sku_code =
      some (applyCommon now st (rateStep st r)) := by
  unfold save_sku_stats
  rw [List.foldl_append, List.foldl_cons, lookupSku_save_untouched now h2,
    lookupSku_saveOne_self_found now (by rw [lookupSku_save_untouched now h1, h])]

/-- C3 witness: `dbC1` has one signed order (< 10), so the rate falls back
to the default 0.3. -/
theorem calculate_sku_stats_return_rate_policy_witness :
    rowC1.estimated_return_rate = 3/10 :=
  (calculate_sku_stats_return_rate_policy dbC1 wAll 0 rowC1
      (by rw [calc_dbC1_eq]; exact List.mem_singleton.mpr rfl)).2 (by decide)

/-- C2: after a `save_sku_stats` run whose freshly computed stats list
contains exactly one entry `st` for a SKU that already has a stored row
`r`, the stored row keeps its manual return rate when `is_rate_manual` is
set (and takes the computed rate otherwise), while every other field —
pending-ship, after-sale-pending, signed, signed-return, in-transit and
quality counts and the calculation timestamp — is overwritten with the
newly computed values. -/
theorem save_sku_stats_manual_override (store : List SkuStatsRec)
    (l1 l2 : List SkuStatRow) (st : SkuStatRow) (now : Int) (r : SkuStatsRec)
    (h : lookupSku store st.sku_code = some r)
    (h1 : ∀ x ∈ l1, x.sku_code ≠ st.sku_code) (h2 : ∀ x ∈ l2, x.sku_code ≠ st.sku_code) :
    ∃ r', lookupSku (save_sku_stats store (l1 ++ st :: l2) now) st.sku_code = some r' ∧
      (r.is_rate_manual = true → r'.estimated_return_rate = r.estimated_return_rate) ∧
      (r.is_rate_manual = false → r'.estimated_return_rate = st.estimated_return_rate) ∧
      r'.pending_ship_count = st.pending_ship_count ∧
      r'.aftersale_pending_count = st.aftersale_pending_count ∧
      r'.signed_count = st.signed_count ∧
      r'.signed_return_count = st.signed_return_count ∧
      r'.in_transit_count = st.in_transit_count ∧
      r'.quality_return_count = st.quality_return_count ∧
      r'.quality_return_rate = st.quality_return_rate ∧
      r'.last_calculated_at = now := by
  refine ⟨_, lookupSku_save_found now h h1 h2, ?_, ?_, rfl, rfl, rfl, rfl, rfl, rfl, rfl, rfl⟩
  · intro hm
    simp [applyCommon, rateStep, hm]
  · intro hm
    simp [applyCommon, rateStep, hm]

/-- A stored snapshot row for SKU `"S"` without a manual override. -/
def recW : SkuStatsRec :=
  { sku_id := "S", sku_code := "S", sku_name := none, product_name := none,
    pending_ship_count := 3, aftersale_pending_count := 1, signed_count := 20,
    signed_return_count := 4, estimated_return_rate := 1/5, is_rate_manual := false,
    in_transit_count := 2, in_transit_return_estimate := 0, stock_gap := 0,
    quality_return_count := 0, quality_return_rate := 0, last_calculated_at := 0 }

/-- The store after `update_return_rate("S", 0.5)`. -/
def storeW : List SkuStatsRec := (update_return_rate [recW] "S" (1/2)).1

/-- The manually overridden row inside `storeW`. -/
def recW1 : SkuStatsRec := storeW.headD default

/-- A freshly computed stats entry for SKU `"S"`. -/
def statW : SkuStatRow :=
  { sku_id := "S", sku_code := "S", sku_name := some "name", product_name := some "p",
    pending_ship_count := 7, aftersale_pending_count := 2, signed_count := 30,
    signed_return_count := 6, estimated_return_rate := 1/5, in_transit_count := 4,
    in_transit_return_estimate := 0, stock_gap := 5, quality_return_count := 1,
    quality_return_rate := 1/30, last_calculated_at := 9 }

/-- C2 witness: the theorem applied to the overridden store `storeW`. -/
theorem save_sku_stats_manual_override_witness :
    ∃ r', lookupSku (save_sku_stats storeW [statW] 9) "S" = some r' ∧
      (recW1.is_rate_manual = true → r'.estimated_return_rate = recW1.estimated_return_rate) ∧
      (recW1.is_rate_manual = false → r'.estimated_return_rate = statW.estimated_return_rate) ∧
      r'.pending_ship_count = statW.pending_ship_count ∧
      r'.aftersale_pending_count = statW.aftersale_pending_count ∧
      r'.signed_count = statW.signed_count ∧
      r'.signed_return_count = statW.signed_return_count ∧
      r'.in_transit_count = statW.in_transit_count ∧
      r'.quality_return_count = statW.quality_return_count ∧
      r'.quality_return_rate = statW.quality_return_rate ∧
      r'.last_calculated_at = 9 :=
  save_sku_stats_manual_override storeW [] [] statW 9 recW1 rfl
    (by simp) (by simp)

/-! ### C4: the stock-gap invariant -/

theorem signed_sku_orders_nonneg (db : DB) (w : Window) (s : String) :
    0 ≤ signed_sku_orders db w s := le_max_right _ 0

theorem computed_return_rate_nonneg (db : DB) (w : Window) (s : String) :
    0 ≤ computed_return_rate db w s := by
  unfold computed_return_rate
  split
  next h =>
    apply div_nonneg (Nat.cast_nonneg _)
    have h0 : (0 : ℤ) ≤ signed_sku_orders db w s := signed_sku_orders_nonneg db w s
    exact_mod_cast h0
  next => norm_num [DEFAULT_RETURN_RATE]

/-- C4: after each of the three snapshot writers — the `calculate_sku_stats`
row construction, the `save_sku_stats` per-row upsert, and
`update_return_rate` — the stored `stock_gap` equals
`pending_ship_count − aftersale_pending_count − in_transit_return_estimate`
of the same row, and `in_transit_return_estimate` is the floor of
`in_transit_count` times the rate effective for that write. -/
theorem stock_gap_recomputed :
    (∀ (db : DB) (w : Window) (now : Int) (row : SkuStatRow),
      row ∈ calculate_sku_stats db w now →
      row.in_transit_return_estimate =
        ⌊(row.in_transit_count : ℚ) * computed_return_rate db w row.sku_code⌋ ∧
      row.stock_gap =
        row.pending_ship_count - row.aftersale_pending_count - row.in_transit_return_estimate) ∧
    (∀ (store : List SkuStatsRec) (st : SkuStatRow) (now : Int) (r' : SkuStatsRec),
      lookupSku (saveOne now store st) st.sku_code = some r' →
      0 ≤ st.in_transit_count → 0 ≤ effectiveRate store st →
      r'.in_transit_return_estimate =
        ⌊(r'.in_transit_count : ℚ) * effectiveRate store st⌋ ∧
      r'.stock_gap =
        r'.pending_ship_count - r'.aftersale_pending_count - r'.in_transit_return_estimate) ∧
    (∀ (store : List SkuStatsRec) (s : String) (rate : ℚ) (r0 r' : SkuStatsRec),
      lookupSku store s = some r0 → 0 ≤ rate → 0 ≤ r0.in_transit_count →
      lookupSku (update_return_rate store s rate).1 s = some r' →
      r'.in_transit_return_estimate = ⌊(r'.in_transit_count : ℚ) * rate⌋ ∧
      r'.stock_gap =
        r'.pending_ship_count - r'.aftersale_pending_count - r'.in_transit_return_estimate) := by
  refine ⟨?_, ?_, ?_⟩
  · intro db w now row hrow
    obtain ⟨s, _, rfl⟩ := List.mem_map.mp hrow
    refine ⟨?_, rfl⟩
    show pyInt ((in_transit_count db w s : ℚ) * computed_return_rate db w s) =
      ⌊((in_transit_count db w s : Int) : ℚ) * computed_return_rate db w ((mkRow db w now s).sku_code)⌋
    have hsku : (mkRow db w now s).sku_code = s := rfl
    rw [hsku, pyInt_eq_floor (mul_nonneg (by positivity) (computed_return_rate_nonneg db w s))]
    norm_num
  · intro store st now r' hl hit hrate
    cases hfound : lookupSku store st.sku_code with
    | some r =>
      rw [lookupSku_saveOne_self_found now hfound] at hl
      injection hl with hl
      subst hl
      have heff : effectiveRate store st =
          (if (rateStep st r).is_rate_manual then (rateStep st r).estimated_return_rate
           else st.estimated_return_rate) := by
        unfold effectiveRate rateStep
        rw [hfound]
        by_cases hm : r.is_rate_manual <;> simp [hm]
      refine ⟨?_, rfl⟩
      show pyInt ((st.in_transit_count : ℚ) * _) = _
      rw [heff, pyInt_eq_floor (mul_nonneg (by exact_mod_cast hit) (by rw [← heff]; exact hrate))]
      rfl
    | none =>
      rw [lookupSku_saveOne_self_new now hfound] at hl
      injection hl with hl
      subst hl
      have heff : effectiveRate store st = st.estimated_return_rate := by
        unfold effectiveRate
        rw [hfound]
      refine ⟨?_, rfl⟩
      show pyInt ((st.in_transit_count : ℚ) * _) = _
      rw [heff, pyInt_eq_floor (mul_nonneg (by exact_mod_cast hit) (by rw [← heff]; exact hrate))]
      rfl
  · intro store s rate r0 r' h0 hrate hit hl
    unfold update_return_rate at hl
    rw [h0] at hl
    rw [lookupSku_updateFirstSku_self _ h0 rfl] at hl
    injection hl with hl
    subst hl
    refine ⟨?_, rfl⟩
    show pyInt ((r0.in_transit_count : ℚ) * rate) = _
    rw [pyInt_eq_floor (mul_nonneg (by exact_mod_cast hit) hrate)]

/-- The snapshot row written by the `save_sku_stats` loop body on `storeW`. -/
def recW2 : SkuStatsRec := (saveOne 9 storeW statW).headD default

/-- C4 witness: the three clauses of the theorem applied at concrete
stores. -/
theorem stock_gap_recomputed_witness :
    (rowC1.in_transit_return_estimate =
        ⌊(rowC1.in_transit_count : ℚ) * computed_return_rate dbC1 wAll rowC1.sku_code⌋ ∧
      rowC1.stock_gap =
        rowC1.pending_ship_count - rowC1.aftersale_pending_count
          - rowC1.in_transit_return_estimate) ∧
    (recW2.in_transit_return_estimate =
        ⌊(recW2.in_transit_count : ℚ) * effectiveRate storeW statW⌋ ∧
      recW2.stock_gap =
        recW2.pending_ship_count - recW2.aftersale_pending_count
          - recW2.in_transit_return_estimate) ∧
    (recW1.in_transit_return_estimate = ⌊(recW1.in_transit_count : ℚ) * (1/2)⌋ ∧
      recW1.stock_gap =
        recW1.pending_ship_count - recW1.aftersale_pending_count
          - recW1.in_transit_return_estimate) :=
  ⟨stock_gap_recomputed.1 dbC1 wAll 0 rowC1
      (by rw [calc_dbC1_eq]; exact List.mem_singleton.mpr rfl),
    stock_gap_recomputed.2.1 storeW statW 9 recW2 rfl (by decide)
      (by rw [show effectiveRate storeW statW = 1/2 from rfl]; norm_num),
    stock_gap_recomputed.2.2 [recW] "S" (1/2) recW recW1 rfl (by norm_num) (by decide) rfl⟩

/-- Twelve signed, paid orders of SKU `"S"`, one of which has a
return-refund after-sale record. -/
def dbC3 : DB :=
  { orders := (List.range 12).map fun i =>
      { order_id := "o" ++ toString i, order_status := 5, pay_time := some 1, is_signed := true }
    order_skus := (List.range 12).map fun i =>
      { order_id := "o" ++ toString i, sku_code := some "S", sku_name := none,
        product_name := none }
    after_sales := [{ aftersale_id := "a1", order_id := some "o0", sku_code := some "S",
                      aftersale_type := 1, aftersale_status := 5,
                      reason_text := "七天无理由" }] }

/-- The single row `calculate_sku_stats` produces on `dbC3`. -/
def rowC3 : SkuStatRow := mkRow dbC3 wAll 0 "S"

theorem calc_dbC3_eq : calculate_sku_stats dbC3 wAll 0 = [rowC3] := rfl

/-- C3 counterexample: on `dbC3` the SKU has 12 signed orders and 1 signed
return, but the estimated return rate in the output is `round(1/12, 4) =
0.0833`, not the exact quotient `1/12` the claim asserts. -/
theorem return_rate_not_exact_quotient :
    rowC3 ∈ calculate_sku_stats dbC3 wAll 0 ∧ 10 ≤ rowC3.signed_count ∧
      rowC3.estimated_return_rate ≠ (rowC3.signed_return_count : ℚ) / (rowC3.signed_count : ℚ) := by
  refine ⟨by rw [calc_dbC3_eq]; exact List.mem_singleton.mpr rfl, by decide, ?_⟩
  have h1 : signed_sku_orders dbC3 wAll "S" = 12 := by decide
  have h2 : signed_return_count dbC3 wAll "S" = 1 := by decide
  have hq : computed_return_rate dbC3 wAll "S" = 1/12 := by
    unfold computed_return_rate
    rw [h1, h2]
    norm_num [MIN_ORDERS_FOR_RATE]
  have hrate : rowC3.estimated_return_rate = round4 (1/12) := by
    rw [show rowC3.estimated_return_rate = round4 (computed_return_rate dbC3 wAll "S") from rfl,
      hq]
  have hfl : roundHalfEven ((1:ℚ)/12 * 10000) = 833 := by
    have he : ((1:ℚ)/12 * 10000) = (2500 : ℚ)/3 := by norm_num
    unfold roundHalfEven
    rw [he, ratFloor_eq_floor]
    norm_num
  have hr4 : round4 ((1:ℚ)/12) = 833/10000 := by
    rw [round4, hfl]
    norm_num
  have hv1 : rowC3.signed_return_count = 1 := by decide
  have hv2 : rowC3.signed_count = 12 := by decide
  rw [hrate, hr4, hv1, hv2]
  norm_num

end Stats

namespace ExcelImport

/-! ### `app/services/excel_import.py` — batch Excel importer -/

/-- `BATCH_SIZE = 1000`. -/
def BATCH_SIZE : Nat := 1000

/-- The raw cells of one row of the orders Excel sheet (each text cell as
`str(...)` of the cell; datetime cells already parsed by `_parse_datetime`,
which yields `None` for NaN/`"-"`/unparsable input). -/
structure ExcelOrderRow where
  order_sn : String
  order_status : String
  express_info : String
  create_time : Option Int
  pay_time : Option Int
  update_time : Option Int
  receiver_name : String
  province : String
  city : String
  merchant_code : String
  product_title : String
  quantity : Int
  deriving DecidableEq, Repr, Inhabited

/-- A persisted `orders` row (the columns the importer reads or writes). -/
structure OrderRec where
  order_id : String
  order_status : Int
  order_status_desc : String
  create_time : Option Int
  pay_time : Option Int
  update_time : Option Int
  receiver_name : String
  province_name : String
  city_name : String
  logistics_code : String
  logistics_company : String
  is_signed : Bool
  created_at : Int
  updated_at : Int
  deriving DecidableEq, Repr, Inhabited

/-- The parsed order dict appended to `records`. -/
structure OrderData where
  order_id : String
  order_status : Int
  order_status_desc : String
  create_time : Option Int
  pay_time : Option Int
  update_time : Option Int
  receiver_name : String
  province_name : String
  city_name : String
  logistics_code : String
  logistics_company : String
  updated_at : Int
  deriving DecidableEq, Repr, Inhabited

/-- A parsed/persisted `order_skus` row. -/
structure SkuData where
  order_id : String
  sku_id : String
  sku_code : String
  sku_code_raw : String
  sku_name : String
  product_name : String
  quantity : Int
  deriving DecidableEq, Repr, Inhabited

/-- A parsed/persisted `after_sales` row. -/
structure AfterSaleData where
  aftersale_id : String
  order_id : Option String
  sku_id : Option String
  sku_code : Option String
  sku_code_raw : Option String
  aftersale_type : Int
  aftersale_status : Int
  aftersale_status_desc : String
  reason_text : String
  reason_code : Option String
  is_quality_issue : Bool
  apply_time : Option Int
  finish_time : Option Int
  province_name : Option String
  updated_at : Int
  deriving DecidableEq, Repr, Inhabited

/-- The backing store touched by the importer. -/
structure Store where
  orders : List OrderRec
  order_skus : List SkuData
  after_sales : List AfterSaleData
  deriving DecidableEq, Repr, Inhabited

/-- The `{total, created, updated, skipped}` counters. -/
structure ImpStats where
  total : Nat
  created : Nat
  updated : Nat
  skipped : Nat
  deriving DecidableEq, Repr, Inhabited

/-- Python `str.split(sep)` for a one-character separator. -/
def splitList (sep : Char) : List Char → List (List Char)
  | [] => [[]]
  | c :: t =>
    let r := splitList sep t
    if c == sep then [] :: r
    else (c :: r.headD []) :: r.tailD []

/-- `parse_express_info` from `app/services/kd100_client.py`: tracking
number and company name from `"number-company,..."`. -/
def parse_express_info (express_str : String) : String × String :=
  if express_str = "" || express_str = "-" then ("", "")
  else
    let first_part := (splitList ',' express_str.data).headD []
    let parts := splitList '-' first_part
    if 2 ≤ parts.length then
      (pyStrip (String.mk (parts.getD 0 [])), pyStrip (String.mk (parts.getD 1 [])))
    else ("", "")

/-- `ORDER_STATUS_MAP` with default 0. -/
def ORDER_STATUS_MAP (s : String) : Int :=
  if s = "待发货" then 2
  else if s = "已发货" then 3
  else if s = "已完成" then 5
  else if s = "已关闭" then 4
  else 0

/-- The parse loop of `_process_order_batch`: returns the parsed order
records, the parsed SKU records, and the `total` and `skipped` counters. -/
def parseOrderRows (now : Int) : List ExcelOrderRow →
    List OrderData × List SkuData × Nat × Nat
  | [] => ([], [], 0, 0)
  | row :: rest =>
    let r := parseOrderRows now rest
    let order_id := pyStrip row.order_sn
    if order_id = "" || order_id = "nan" then
      (r.1, r.2.1, r.2.2.1, r.2.2.2 + 1)
    else
      let order_status_str := pyStrip row.order_status
      let express := parse_express_info (pyStrip row.express_info)
      let od : OrderData :=
        { order_id := order_id
          order_status := ORDER_STATUS_MAP order_status_str
          order_status_desc := order_status_str
          create_time := row.create_time
          pay_time := row.pay_time
          update_time := row.update_time
          receiver_name := pyStrip row.receiver_name
          province_name := pyStrip row.province
          city_name := pyStrip row.city
          logistics_code := express.1
          logistics_company := express.2
          updated_at := now }
      let sku_code_raw0 := pyStrip row.merchant_code
      let skus :=
        if sku_code_raw0 ≠ "" ∧ sku_code_raw0 ≠ "nan" then
          let sku_code_raw :=
            pyStrip (String.mk (sku_code_raw0.data.filter (fun c => !(c == '\t'))))
          let sku_code := clean_sku_code (some sku_code_raw)
          if sku_code ≠ "" then
            { order_id := order_id, sku_id := sku_code, sku_code := sku_code,
              sku_code_raw := sku_code_raw, sku_name := pyStrip row.product_title,
              product_name := pyStrip row.product_title,
              quantity := row.quantity } :: r.2.1
          else r.2.1
        else r.2.1
      (od :: r.1, skus, r.2.2.1 + 1, r.2.2.2)

/-- Does an order row with this natural key exist? (the pre-upsert
existence query). -/
def containsOrder (orders : List OrderRec) (oid : String) : Bool :=
  orders.any fun o => o.order_id == oid

/-- Mutate the (unique) order row with the given natural key. -/
def updateFirstOrder (oid : String) (f : OrderRec → OrderRec) :
    List OrderRec → List OrderRec
  | [] => []
  | o :: os => if o.order_id == oid then f o :: os else o :: updateFirstOrder oid f os

/-- The `set_` clause of the order upsert: every bulk field except
`created_at` and the logistics-check/signed fields. -/
def orderUpsertFields (r : OrderData) (old : OrderRec) : OrderRec :=
  { old with
    order_status := r.order_status
    order_status_desc := r.order_status_desc
    create_time := r.create_time
    pay_time := r.pay_time
    update_time := r.update_time
    receiver_name := r.receiver_name
    province_name := r.province_name
    city_name := r.city_name
    logistics_code := r.logistics_code
    logistics_company := r.logistics_company
    updated_at := r.updated_at }

/-- A freshly inserted order row (`is_signed`/`logistics_checked` take
their column defaults; `created_at` from `setdefault`). -/
def newOrderRec (now : Int) (r : OrderData) : OrderRec :=
  { order_id := r.order_id, order_status := r.order_status,
    order_status_desc := r.order_status_desc, create_time := r.create_time,
    pay_time := r.pay_time, update_time := r.update_time,
    receiver_name := r.receiver_name, province_name := r.province_name,
    city_name := r.city_name, logistics_code := r.logistics_code,
    logistics_company := r.logistics_company, is_signed := false,
    created_at := now, updated_at := r.updated_at }

/-- One VALUES row of the SQLite
`INSERT ... ON CONFLICT(order_id) DO UPDATE`: rows are applied in order,
so a duplicate key inside one statement updates the row the statement just
inserted. -/
def upsertOrderRow (now : Int) (orders : List OrderRec) (r : OrderData) : List OrderRec :=
  if containsOrder orders r.order_id then
    updateFirstOrder r.order_id (orderUpsertFields r) orders
  else orders ++ [newOrderRec now r]

/-- The whole batch upsert. -/
def upsertOrders (now : Int) (orders : List OrderRec) (records : List OrderData) :
    List OrderRec :=
  records.foldl (upsertOrderRow now) orders

/-- `_process_sku_batch`: delete all lines of every order touched by the
batch, then insert the batch's lines. -/
def process_sku_batch (order_skus : List SkuData) (sku_records : List SkuData) :
    List SkuData :=
  if sku_records.isEmpty then order_skus
  else
    let order_ids :=
      ((sku_records.filter fun r => !(r.order_id == "")).map fun r => r.order_id).dedup
    if order_ids.isEmpty then order_skus
    else
      (order_skus.filter fun r => !(order_ids.contains r.order_id)) ++ sku_records

/-- `_process_order_batch`: parse, pre-classify by key existence, upsert
orders, replace the touched orders' SKU lines, and report the counters. -/
def process_order_batch (now : Int) (st : Store) (batch : List ExcelOrderRow) :
    Store × ImpStats :=
  let p := parseOrderRows now batch
  let records := p.1
  let sku_records := p.2.1
  let total := p.2.2.1
  let skipped := p.2.2.2
  if records.isEmpty then (st, ⟨total, 0, 0, skipped⟩)
  else
    let order_ids := records.map fun r => r.order_id
    let orders1 := upsertOrders now st.orders records
    let created := (order_ids.filter fun oid => !(containsOrder st.orders oid)).length
    let updated := (order_ids.filter fun oid => containsOrder st.orders oid).length
    let skus1 :=
      if sku_records.isEmpty then st.order_skus
      else process_sku_batch st.order_skus sku_records
    ({ st with orders := orders1, order_skus := skus1 }, ⟨total, created, updated, skipped⟩)

/-- Split a row list into `BATCH_SIZE` chunks.  `fuel` bounds the loop and
is structural; `length + 1` is always enough. -/
def chunksGo {α : Type} : Nat → List α → List (List α)
  | _, [] => []
  | 0, _ => []
  | fuel + 1, l => l.take BATCH_SIZE :: chunksGo fuel (l.drop BATCH_SIZE)

/-- The `range(0, total_rows, BATCH_SIZE)` batch slicing. -/
def chunks {α : Type} (l : List α) : List (List α) := chunksGo (l.length + 1) l

/-- Add two counter records (the cumulative loop of `import_orders` /
`import_aftersales`). -/
def addStats (a b : ImpStats) : ImpStats :=
  ⟨a.total + b.total, a.created + b.created, a.updated + b.updated, a.skipped + b.skipped⟩

/-- One iteration of the cumulative batch loop of `import_orders`. -/
def orderFoldStep (now : Int) (acc : Store × ImpStats) (batch : List ExcelOrderRow) :
    Store × ImpStats :=
  ((process_order_batch now acc.1 batch).1,
    addStats acc.2 (process_order_batch now acc.1 batch).2)

/-- `ExcelImportService.import_orders`. -/
def import_orders (now : Int) (st : Store) (rows : List ExcelOrderRow) :
    Store × ImpStats :=
  (chunks rows).foldl (orderFoldStep now) (st, ⟨0, 0, 0, 0⟩)

/-! ### After-sale import -/

/-- The raw cells of one row of the after-sales Excel sheet. -/
structure ExcelAftersaleRow where
  aftersale_sn : String
  order_sn : String
  merchant_code : String
  aftersale_type : String
  aftersale_status : String
  reason : String
  reason_tag : String
  apply_time : Option Int
  finish_time : Option Int
  deriving DecidableEq, Repr, Inhabited

/-- `AFTERSALE_PENDING_STATUS`. -/
def AFTERSALE_PENDING_STATUS : List String := ["待买家退货", "待商家收货", "待商家处理"]

/-- The quality keywords of the after-sale parser. -/
def QUALITY_KEYWORDS : List String := ["质量", "破损", "与描述不符", "假货", "品质"]

/-- The parse loop of `_process_aftersale_batch`: parsed records plus the
`total` and `skipped` counters. -/
def parseAftersaleRows (now : Int) : List ExcelAftersaleRow →
    List AfterSaleData × Nat × Nat
  | [] => ([], 0, 0)
  | row :: rest =>
    let r := parseAftersaleRows now rest
    let aftersale_id := pyStrip row.aftersale_sn
    if aftersale_id = "" || aftersale_id = "nan" then
      (r.1, r.2.1, r.2.2 + 1)
    else
      let order_id := pyStrip row.order_sn
      let sku_code_raw0 := pyStrip row.merchant_code
      let skuPair : Option String × Option String :=
        if sku_code_raw0 ≠ "" ∧ sku_code_raw0 ≠ "nan" then
          let sku_code_raw :=
            pyStrip (String.mk (sku_code_raw0.data.filter (fun c => !(c == '\t'))))
          let sku_code := clean_sku_code (some sku_code_raw)
          if sku_code ≠ "" then (some sku_code_raw, some sku_code) else (none, none)
        else (none, none)
      let type_str := pyStrip row.aftersale_type
      let aftersale_type : Int :=
        if strContains type_str "退货" then 1
        else if strContains type_str "退款" then 2
        else if strContains type_str "换货" then 3
        else 0
      let status_str := pyStrip row.aftersale_status
      let aftersale_status : Int :=
        if AFTERSALE_PENDING_STATUS.any (fun s => strContains status_str s) then 2
        else if strContains status_str "成功" || strContains status_str "退款" then 5
        else if strContains status_str "关闭" || strContains status_str "拒绝" then 6
        else 1
      let reason_text := pyStrip row.reason
      let reason_code := pyStrip row.reason_tag
      let is_quality_issue := QUALITY_KEYWORDS.any fun kw => strContains reason_text kw
      let rec0 : AfterSaleData :=
        { aftersale_id := aftersale_id
          order_id := if order_id ≠ "" ∧ order_id ≠ "nan" then some order_id else none
          sku_id := skuPair.2
          sku_code := skuPair.2
          sku_code_raw := skuPair.1
          aftersale_type := aftersale_type
          aftersale_status := aftersale_status
          aftersale_status_desc := status_str
          reason_text := reason_text
          reason_code := if reason_code ≠ "nan" then some reason_code else none
          is_quality_issue := is_quality_issue
          apply_time := row.apply_time
          finish_time := row.finish_time
          province_name := none
          updated_at := now }
      (rec0 :: r.1, r.2.1 + 1, r.2.2)

/-- The province of the referenced order, if that order exists (the
batched `select(Order.order_id, Order.province_name)` lookup). -/
def provinceOf (orders : List OrderRec) (oid : String) : Option String :=
  match orders.find? (fun o => o.order_id == oid) with
  | some o => some o.province_name
  | none => none

/-- Step 3: denormalise the province from the referenced order. -/
def fillProvince (orders : List OrderRec) (records : List AfterSaleData) :
    List AfterSaleData :=
  records.map fun r =>
    match r.order_id with
    | some oid =>
      match provinceOf orders oid with
      | some p => { r with province_name := some p }
      | none => r
    | none => r

/-- Does an after-sale row with this natural key exist? -/
def containsAftersale (after_sales : List AfterSaleData) (aid : String) : Bool :=
  after_sales.any fun a => a.aftersale_id == aid

/-- Mutate the (unique) after-sale row with the given natural key. -/
def updateFirstAftersale (aid : String) (f : AfterSaleData → AfterSaleData) :
    List AfterSaleData → List AfterSaleData
  | [] => []
  | a :: as =>
    if a.aftersale_id == aid then f a :: as else a :: updateFirstAftersale aid f as

/-- The `set_` clause of the after-sale upsert (`sku_code_raw` is not in
the clause and survives updates). -/
def aftersaleUpsertFields (r : AfterSaleData) (old : AfterSaleData) : AfterSaleData :=
  { old with
    order_id := r.order_id
    sku_id := r.sku_id
    sku_code := r.sku_code
    aftersale_type := r.aftersale_type
    aftersale_status := r.aftersale_status
    aftersale_status_desc := r.aftersale_status_desc
    reason_text := r.reason_text
    reason_code := r.reason_code
    is_quality_issue := r.is_quality_issue
    apply_time := r.apply_time
    finish_time := r.finish_time
    province_name := r.province_name
    updated_at := r.updated_at }

/-- One VALUES row of the after-sale upsert. -/
def upsertAftersaleRow (after_sales : List AfterSaleData) (r : AfterSaleData) :
    List AfterSaleData :=
  if containsAftersale after_sales r.aftersale_id then
    updateFirstAftersale r.aftersale_id (aftersaleUpsertFields r) after_sales
  else after_sales ++ [r]

/-- Step 6: mark the orders referenced by return-refund rows as signed
(`WHERE order_id IN ids AND is_signed == False`). -/
def markSigned (ids : List String) (orders : List OrderRec) : List OrderRec :=
  orders.map fun o =>
    if ids.contains o.order_id && o.is_signed == false then
      { o with is_signed := true }
    else o

/-- `_process_aftersale_batch`. -/
def process_aftersale_batch (now : Int) (st : Store) (batch : List ExcelAftersaleRow) :
    Store × ImpStats :=
  let p := parseAftersaleRows now batch
  let records0 := p.1
  let total := p.2.1
  let skipped := p.2.2
  if records0.isEmpty then (st, ⟨total, 0, 0, skipped⟩)
  else
    let records := fillProvince st.orders records0
    let aftersale_ids := records.map fun r => r.aftersale_id
    let aftersales1 := records.foldl upsertAftersaleRow st.after_sales
    let created := (aftersale_ids.filter fun aid => !(containsAftersale st.after_sales aid)).length
    let updated := (aftersale_ids.filter fun aid => containsAftersale st.after_sales aid).length
    let refund_order_ids :=
      (records.filter fun r => r.aftersale_type == 1 && r.order_id.isSome).filterMap
        fun r => r.order_id
    let orders1 :=
      if refund_order_ids.isEmpty then st.orders else markSigned refund_order_ids st.orders
    ({ st with orders := orders1, after_sales := aftersales1 }, ⟨total, created, updated, skipped⟩)

/-- One iteration of the cumulative batch loop of `import_aftersales`. -/
def aftersaleFoldStep (now : Int) (acc : Store × ImpStats)
    (batch : List ExcelAftersaleRow) : Store × ImpStats :=
  ((process_aftersale_batch now acc.1 batch).1,
    addStats acc.2 (process_aftersale_batch now acc.1 batch).2)

/-- `ExcelImportService.import_aftersales`. -/
def import_aftersales (now : Int) (st : Store) (rows : List ExcelAftersaleRow) :
    Store × ImpStats :=
  (chunks rows).foldl (aftersaleFoldStep now) (st, ⟨0, 0, 0, 0⟩)

/-! ### C6: the duplicate-key scenario -/

/-- The input row `{order=A, status="待发货"}` of the scenario. -/
def rowA : ExcelOrderRow :=
  { order_sn := "A", order_status := "待发货", express_info := "",
    create_time := none, pay_time := none, update_time := none,
    receiver_name := "", province := "", city := "", merchant_code := "",
    product_title := "", quantity := 1 }

/-- The empty store. -/
def emptyStore : Store := { orders := [], order_skus := [], after_sales := [] }

/-- C6 counterexample: on the batch `[rowA, rowA]` against an empty store
the importer does NOT report `created = 1, updated = 1` — the pre-upsert
existence check sees neither row's key, so both count as created. -/
theorem duplicate_key_batch_not_one_one :
    ¬((import_orders 0 emptyStore [rowA, rowA]).2.created = 1 ∧
      (import_orders 0 emptyStore [rowA, rowA]).2.updated = 1) := by
  decide

/-- C6 (amended): the batch `[rowA, rowA]` reports `total = 2,
created = 2, updated = 0`, and exactly one order row for `A` exists
afterwards. -/
theorem duplicate_key_batch_counts :
    (import_orders 0 emptyStore [rowA, rowA]).2 = ⟨2, 2, 0, 0⟩ ∧
    ((import_orders 0 emptyStore [rowA, rowA]).1.orders.filter
        fun o => o.order_id == "A").length = 1 := by
  decide

/-! ### C7: replace semantics for order lines -/

/-- C7: for every order `o` touched by the batch (some parsed line carries
its non-empty key), the lines stored for `o` after `_process_sku_batch`
are exactly the batch's new lines for `o` — all previously persisted lines
of `o` are gone. -/
theorem process_sku_batch_replace (order_skus new : List SkuData) (o : String)
    (r : SkuData) (hr : r ∈ new) (hro : r.order_id = o) (ho : o ≠ "") :
    (process_sku_batch order_skus new).filter (fun x => x.order_id == o) =
      new.filter (fun x => x.order_id == o) := by
  have hne1 : new.isEmpty = false := by
    cases new with
    | nil => exact absurd hr (List.not_mem_nil r)
    | cons a t => rfl
  have hmem : o ∈ ((new.filter fun x => !(x.order_id == "")).map fun x => x.order_id).dedup := by
    rw [List.mem_dedup, List.mem_map]
    refine ⟨r, List.mem_filter.mpr ⟨hr, ?_⟩, hro⟩
    simp [hro, ho]
  have hne2 : (((new.filter fun x => !(x.order_id == "")).map
      fun x => x.order_id).dedup).isEmpty = false := by
    cases hl : ((new.filter fun x => !(x.order_id == "")).map fun x => x.order_id).dedup with
    | nil => rw [hl] at hmem; exact absurd hmem (List.not_mem_nil o)
    | cons a t => rfl
  unfold process_sku_batch
  rw [hne1]
  simp only [Bool.false_eq_true, if_false]
  rw [hne2]
  simp only [Bool.false_eq_true, if_false]
  rw [List.filter_append]
  have h1 : (order_skus.filter fun x =>
      !(((new.filter fun y => !(y.order_id == "")).map
          fun y => y.order_id).dedup.contains x.order_id)).filter
        (fun x => x.order_id == o) = [] := by
    rw [List.filter_eq_nil_iff]
    intro a ha hao
    have ha2 := (List.mem_filter.mp ha).2
    rw [beq_iff_eq] at hao
    rw [Bool.not_eq_eq_eq_not, Bool.not_true] at ha2
    rw [hao] at ha2
    have ha3 : o ∉ ((new.filter fun y => !(y.order_id == "")).map
        fun y => y.order_id).dedup := by simpa using ha2
    exact ha3 hmem
  rw [h1, List.nil_append]

/-- Stale lines for order `"A"` from an earlier import. -/
def staleLines : List SkuData :=
  [{ order_id := "A", sku_id := "X", sku_code := "X", sku_code_raw := "X",
     sku_name := "x", product_name := "x", quantity := 1 }]

/-- The re-imported batch: a different line list for `"A"` plus a line of
another order. -/
def newLines : List SkuData :=
  [{ order_id := "A", sku_id := "Y", sku_code := "Y", sku_code_raw := "Y",
     sku_name := "y", product_name := "y", quantity := 2 },
   { order_id := "B", sku_id := "Z", sku_code := "Z", sku_code_raw := "Z",
     sku_name := "z", product_name := "z", quantity := 1 }]

/-- C7 witness: re-importing `"A"` with a different line list leaves
exactly the new lines for `"A"`. -/
theorem process_sku_batch_replace_witness :
    (process_sku_batch staleLines newLines).filter (fun x => x.order_id == "A") =
      newLines.filter (fun x => x.order_id == "A") :=
  process_sku_batch_replace staleLines newLines "A"
    { order_id := "A", sku_id := "Y", sku_code := "Y", sku_code_raw := "Y",
      sku_name := "y", product_name := "y", quantity := 2 }
    (by decide) rfl (by decide)

/-! ### C10: the counters invariant -/

theorem parseOrderRows_counters (now : Int) (rows : List ExcelOrderRow) :
    (parseOrderRows now rows).2.2.1 = (parseOrderRows now rows).1.length ∧
    (parseOrderRows now rows).2.2.1 + (parseOrderRows now rows).2.2.2 = rows.length := by
  induction rows with
  | nil => simp [parseOrderRows]
  | cons row rest ih =>
    by_cases h1 : pyStrip row.order_sn = "" <;> by_cases h2 : pyStrip row.order_sn = "nan" <;>
      simp [parseOrderRows, h1, h2] <;> omega

theorem parseAftersaleRows_counters (now : Int) (rows : List ExcelAftersaleRow) :
    (parseAftersaleRows now rows).2.1 = (parseAftersaleRows now rows).1.length ∧
    (parseAftersaleRows now rows).2.1 + (parseAftersaleRows now rows).2.2 = rows.length := by
  induction rows with
  | nil => simp [parseAftersaleRows]
  | cons row rest ih =>
    by_cases h1 : pyStrip row.aftersale_sn = "" <;>
      by_cases h2 : pyStrip row.aftersale_sn = "nan" <;>
      simp [parseAftersaleRows, h1, h2] <;> omega

theorem filter_not_partition {α : Type} (l : List α) (p : α → Bool) :
    (l.filter fun a => !(p a)).length + (l.filter p).length = l.length := by
  induction l with
  | nil => rfl
  | cons a t ih => cases hp : p a <;> simp [List.filter_cons, hp] <;> omega

theorem process_order_batch_counters (now : Int) (st : Store)
    (batch : List ExcelOrderRow) :
    (process_order_batch now st batch).2.total =
      (process_order_batch now st batch).2.created +
        (process_order_batch now st batch).2.updated ∧
    (process_order_batch now st batch).2.total +
      (process_order_batch now st batch).2.skipped = batch.length := by
  have hp := parseOrderRows_counters now batch
  unfold process_order_batch
  by_cases hrec : (parseOrderRows now batch).1.isEmpty
  · have hlen0 : (parseOrderRows now batch).1.length = 0 := by
      rw [List.isEmpty_iff] at hrec
      rw [hrec]
      rfl
    simp only [hrec, if_true]
    exact ⟨by omega, by omega⟩
  · simp only [hrec, Bool.false_eq_true, if_false]
    have hpart := filter_not_partition ((parseOrderRows now batch).1.map fun r => r.order_id)
      (fun oid => containsOrder st.orders oid)
    rw [List.length_map] at hpart
    exact ⟨by omega, by omega⟩

theorem process_aftersale_batch_counters (now : Int) (st : Store)
    (batch : List ExcelAftersaleRow) :
    (process_aftersale_batch now st batch).2.total =
      (process_aftersale_batch now st batch).2.created +
        (process_aftersale_batch now st batch).2.updated ∧
    (process_aftersale_batch now st batch).2.total +
      (process_aftersale_batch now st batch).2.skipped = batch.length := by
  have hp := parseAftersaleRows_counters now batch
  unfold process_aftersale_batch
  by_cases hrec : (parseAftersaleRows now batch).1.isEmpty
  · have hlen0 : (parseAftersaleRows now batch).1.length = 0 := by
      rw [List.isEmpty_iff] at hrec
      rw [hrec]
      rfl
    simp only [hrec, if_true]
    exact ⟨by omega, by omega⟩
  · simp only [hrec, Bool.false_eq_true, if_false]
    have hpart := filter_not_partition
      ((fillProvince st.orders (parseAftersaleRows now batch).1).map fun r => r.aftersale_id)
      (fun aid => containsAftersale st.after_sales aid)
    rw [List.length_map] at hpart
    have hfl : (fillProvince st.orders (parseAftersaleRows now batch).1).length =
        (parseAftersaleRows now batch).1.length := List.length_map _ _
    exact ⟨by omega, by omega⟩

theorem chunksGo_sum_length {α : Type} (fuel : Nat) (l : List α)
    (h : l.length < fuel) :
    ((chunksGo fuel l).map List.length).sum = l.length := by
  induction fuel generalizing l with
  | zero => omega
  | succ n ih =>
    cases l with
    | nil => simp [chunksGo]
    | cons c t =>
      have hrec := ih (List.drop BATCH_SIZE (c :: t))
        (by simp [BATCH_SIZE] at h ⊢; omega)
      simp only [chunksGo, List.map_cons, List.sum_cons, hrec, List.length_take,
        List.length_drop]
      simp only [List.length_cons, BATCH_SIZE] at *
      omega

theorem chunks_sum_length {α : Type} (l : List α) :
    ((chunks l).map List.length).sum = l.length :=
  chunksGo_sum_length _ l (Nat.lt_succ_self _)

theorem import_orders_fold_counters (now : Int)
    (batches : List (List ExcelOrderRow)) (st : Store) (acc : ImpStats)
    (h1 : acc.total = acc.created + acc.updated) :
    (batches.foldl (orderFoldStep now) (st, acc)).2.total =
      (batches.foldl (orderFoldStep now) (st, acc)).2.created +
        (batches.foldl (orderFoldStep now) (st, acc)).2.updated ∧
    (batches.foldl (orderFoldStep now) (st, acc)).2.total +
      (batches.foldl (orderFoldStep now) (st, acc)).2.skipped =
      acc.total + acc.skipped + (batches.map List.length).sum := by
  induction batches generalizing st acc with
  | nil =>
    simp only [List.foldl_nil, List.map_nil, List.sum_nil]
    exact ⟨h1, by omega⟩
  | cons b bs ih =>
    have hb := process_order_batch_counters now st b
    have hx := ih (process_order_batch now st b).1
      (addStats acc (process_order_batch now st b).2)
      (by simp only [addStats]; omega)
    rw [List.foldl_cons] at *
    simp only [orderFoldStep] at *
    simp only [addStats] at hx ⊢
    simp only [List.map_cons, List.sum_cons]
    exact ⟨hx.1, by omega⟩

theorem import_aftersales_fold_counters (now : Int)
    (batches : List (List ExcelAftersaleRow)) (st : Store) (acc : ImpStats)
    (h1 : acc.total = acc.created + acc.updated) :
    (batches.foldl (aftersaleFoldStep now) (st, acc)).2.total =
      (batches.foldl (aftersaleFoldStep now) (st, acc)).2.created +
        (batches.foldl (aftersaleFoldStep now) (st, acc)).2.updated ∧
    (batches.foldl (aftersaleFoldStep now) (st, acc)).2.total +
      (batches.foldl (aftersaleFoldStep now) (st, acc)).2.skipped =
      acc.total + acc.skipped + (batches.map List.length).sum := by
  induction batches generalizing st acc with
  | nil =>
    simp only [List.foldl_nil, List.map_nil, List.sum_nil]
    exact ⟨h1, by omega⟩
  | cons b bs ih =>
    have hb := process_aftersale_batch_counters now st b
    have hx := ih (process_aftersale_batch now st b).1
      (addStats acc (process_aftersale_batch now st b).2)
      (by simp only [addStats]; omega)
    rw [List.foldl_cons] at *
    simp only [aftersaleFoldStep] at *
    simp only [addStats] at hx ⊢
    simp only [List.map_cons, List.sum_cons]
    exact ⟨hx.1, by omega⟩

/-- C10: for every completed `import_orders` and `import_aftersales` run,
`total = created + updated` — key-less rows live only in `skipped`
(`total + skipped` is the row count), and each counted row is classified
as exactly one of created/updated by the pre-upsert existence check. -/
theorem import_counters_consistent :
    (∀ (now : Int) (st : Store) (rows : List ExcelOrderRow),
      (import_orders now st rows).2.total =
        (import_orders now st rows).2.created + (import_orders now st rows).2.updated ∧
      (import_orders now st rows).2.total + (import_orders now st rows).2.skipped =
        rows.length) ∧
    (∀ (now : Int) (st : Store) (rows : List ExcelAftersaleRow),
      (import_aftersales now st rows).2.total =
        (import_aftersales now st rows).2.created +
          (import_aftersales now st rows).2.updated ∧
      (import_aftersales now st rows).2.total + (import_aftersales now st rows).2.skipped =
        rows.length) := by
  constructor
  · intro now st rows
    have h := import_orders_fold_counters now (chunks rows) st ⟨0, 0, 0, 0⟩ rfl
    rw [chunks_sum_length] at h
    unfold import_orders
    exact ⟨h.1, by simpa using h.2⟩
  · intro now st rows
    have h := import_aftersales_fold_counters now (chunks rows) st ⟨0, 0, 0, 0⟩ rfl
    rw [chunks_sum_length] at h
    unfold import_aftersales
    exact ⟨h.1, by simpa using h.2⟩

end ExcelImport

namespace Worker

/-! ### `app/workers/import_worker.py` — job queue worker -/

/-- A row of `import_jobs` (payload flattened to its two filename keys). -/
structure JobRec where
  id : Nat
  task_id : String
  task_type : String
  status : String
  orders_filename : Option String
  aftersales_filename : Option String
  picked_at : Option Int
  created_at : Int
  updated_at : Int
  deriving DecidableEq, Repr, Inhabited

/-- A row of `import_tasks` (fields the worker writes). -/
structure TaskRec where
  task_id : String
  status : String
  progress : Option String
  order_stats : Option ExcelImport.ImpStats
  aftersale_stats : Option ExcelImport.ImpStats
  sku_stats_count : Option Nat
  error : Option String
  started_at : Int
  completed_at : Option Int
  deriving DecidableEq, Repr, Inhabited

/-- The durable store seen by the worker. -/
structure World where
  jobs : List JobRec
  tasks : List TaskRec
  deriving DecidableEq, Repr, Inhabited

/-- `SELECT ... WHERE key = k` with `scalar_one_or_none()` under a unique
key: the first match. -/
def lookupBy {α : Type} {β : Type} [BEq β] (key : α → β) : List α → β → Option α
  | [], _ => none
  | x :: xs, k => if key x == k then some x else lookupBy key xs k

/-- Mutate the (unique) element with the given key in place. -/
def updateFirstBy {α : Type} {β : Type} [BEq β] (key : α → β) (k : β) (f : α → α) :
    List α → List α
  | [] => []
  | x :: xs => if key x == k then f x :: xs else x :: updateFirstBy key k f xs

theorem lookupBy_updateFirstBy_self {α β : Type} [BEq β] [LawfulBEq β]
    (key : α → β) {l : List α} {k : β} {x : α} (f : α → α)
    (h : lookupBy key l k = some x) (hf : key (f x) = key x) :
    lookupBy key (updateFirstBy key k f l) k = some (f x) := by
  induction l with
  | nil => simp [lookupBy] at h
  | cons y ys ih =>
    by_cases hy : (key y == k) = true
    · simp only [lookupBy, if_pos hy, Option.some.injEq] at h
      subst h
      have hfy : (key (f y) == k) = true := by
        rw [beq_iff_eq] at hy ⊢
        rw [hf, hy]
      simp [updateFirstBy, lookupBy, hy, hfy]
    · simp only [lookupBy, if_neg hy] at h
      simp [updateFirstBy, lookupBy, hy, ih h]

theorem lookupBy_updateFirstBy_isSome {α β : Type} [BEq β] [LawfulBEq β]
    (key : α → β) (l : List α) (k k0 : β) (f : α → α)
    (hf : ∀ x, key (f x) = key x) :
    (lookupBy key (updateFirstBy key k0 f l) k).isSome = (lookupBy key l k).isSome := by
  induction l with
  | nil => simp [updateFirstBy]
  | cons y ys ih =>
    by_cases hy : (key y == k0) = true
    · have hfy : (key (f y) == k) = (key y == k) := by rw [hf]
      simp only [updateFirstBy, if_pos hy, lookupBy, hfy]
      by_cases hk : (key y == k) = true <;> simp [hk]
    · simp only [updateFirstBy, if_neg hy, lookupBy]
      by_cases hk : (key y == k) = true <;> simp [hk, ih]

/-- Look an `ImportJob` up by primary key. -/
def lookupJob (jobs : List JobRec) (jid : Nat) : Option JobRec :=
  lookupBy (fun j => j.id) jobs jid

/-- Look an `ImportTask` up by `task_id`. -/
def lookupTask (tasks : List TaskRec) (tid : String) : Option TaskRec :=
  lookupBy (fun t => t.task_id) tasks tid

/-- The first half of `_claim_one_job`: select the oldest queued job. -/
def selectOldestQueued (jobs : List JobRec) : Option JobRec :=
  ((jobs.filter fun j => j.status == "queued").insertionSort
    (fun a b => a.created_at ≤ b.created_at)).head?

/-- The row transformation of the guarded conditional update. -/
def claimUpd (jid : Nat) (now : Int) (j : JobRec) : JobRec :=
  if j.id == jid && j.status == "queued" then
    { j with status := "processing", picked_at := some now, updated_at := now }
  else j

/-- The guarded conditional update
`UPDATE import_jobs SET status='processing', picked_at=now
 WHERE id = jid AND status = 'queued'`, returning the new rows and the
rowcount. -/
def cond_claim_update (jobs : List JobRec) (jid : Nat) (now : Int) :
    List JobRec × Nat :=
  (jobs.map (claimUpd jid now),
   (jobs.filter fun j => j.id == jid && j.status == "queued").length)

/-- The second half of `_claim_one_job`, after a job has been selected:
run the conditional update and own the job only if exactly one row was
affected (re-reading the refreshed row). -/
def claimAfterSelect (jobs : List JobRec) (job : JobRec) (now : Int) :
    List JobRec × Option JobRec :=
  if (cond_claim_update jobs job.id now).2 == 1 then
    ((cond_claim_update jobs job.id now).1,
      lookupJob (cond_claim_update jobs job.id now).1 job.id)
  else ((cond_claim_update jobs job.id now).1, none)

/-- `ImportWorker._claim_one_job`. -/
def _claim_one_job (jobs : List JobRec) (now : Int) : List JobRec × Option JobRec :=
  match selectOldestQueued jobs with
  | none => (jobs, none)
  | some job => claimAfterSelect jobs job now

theorem selectOldestQueued_mem {jobs : List JobRec} {X : JobRec}
    (h : selectOldestQueued jobs = some X) : X ∈ jobs ∧ X.status = "queued" := by
  unfold selectOldestQueued at h
  have hmem : X ∈ (jobs.filter fun j => j.status == "queued").insertionSort
      (fun a b => a.created_at ≤ b.created_at) := by
    cases hl : (jobs.filter fun j => j.status == "queued").insertionSort
        (fun a b => a.created_at ≤ b.created_at) with
    | nil => rw [hl] at h; simp at h
    | cons a t =>
      rw [hl] at h
      simp only [List.head?_cons, Option.some.injEq] at h
      subst h
      exact List.mem_cons_self _ _
  rw [(List.perm_insertionSort _ _).mem_iff, List.mem_filter] at hmem
  exact ⟨hmem.1, by simpa using hmem.2⟩

theorem lookupBy_isSome_of_mem {α β : Type} [BEq β] [LawfulBEq β]
    (key : α → β) {l : List α} {x : α} {k : β} (hx : x ∈ l) (hk : key x = k) :
    (lookupBy key l k).isSome = true := by
  induction l with
  | nil => exact absurd hx (List.not_mem_nil x)
  | cons y ys ih =>
    by_cases hy : (key y == k) = true
    · simp [lookupBy, hy]
    · rcases List.mem_cons.mp hx with rfl | hxs
      · rw [beq_iff_eq] at hy
        exact absurd hk hy
      · simp [lookupBy, hy, ih hxs]

/-- With unique primary keys, exactly one row satisfies the claim guard of
a queued job. -/
theorem claim_filter_singleton (jobs : List JobRec) (X : JobRec)
    (hnodup : (jobs.map fun j => j.id).Nodup) (hX : X ∈ jobs)
    (hq : X.status = "queued") :
    (jobs.filter fun j => j.id == X.id && j.status == "queued").length = 1 := by
  induction jobs with
  | nil => exact absurd hX (List.not_mem_nil X)
  | cons y ys ih =>
    rw [List.map_cons, List.nodup_cons] at hnodup
    obtain ⟨hy_not, hnd⟩ := hnodup
    rcases List.mem_cons.mp hX with rfl | hXys
    · have hp : (X.id == X.id && X.status == "queued") = true := by simp [hq]
      rw [List.filter_cons, if_pos hp]
      have hrest : (ys.filter fun j => j.id == X.id && j.status == "queued") = [] := by
        rw [List.filter_eq_nil_iff]
        intro j hj hpj
        simp only [Bool.and_eq_true, beq_iff_eq] at hpj
        exact hy_not (hpj.1 ▸ List.mem_map_of_mem (fun j => j.id) hj)
      rw [hrest]
      rfl
    · have hyid : (y.id == X.id) = false := by
        rw [beq_eq_false_iff_ne]
        intro hEq
        exact hy_not (hEq ▸ List.mem_map_of_mem (fun j => j.id) hXys)
      rw [List.filter_cons, if_neg (by simp [hyid])]
      exact ih hnd hXys

/-- After the conditional update has fired, no row satisfies the guard any
more. -/
theorem claim_filter_after_update (jobs : List JobRec) (jid : Nat) (now : Int) :
    ((cond_claim_update jobs jid now).1.filter
      fun j => j.id == jid && j.status == "queued").length = 0 := by
  rw [List.length_eq_zero, List.filter_eq_nil_iff]
  intro j hj hpj
  simp only [cond_claim_update, List.mem_map] at hj
  obtain ⟨j0, _, rfl⟩ := hj
  by_cases hc : (j0.id == jid && j0.status == "queued") = true
  · rw [claimUpd, if_pos hc] at hpj
    simp at hpj
  · rw [claimUpd, if_neg hc] at hpj
    exact hc hpj

/-- C5: a claim attempt returns a job exactly when its guarded conditional
update affects one row; and when two attempts race on the same selected
queued job, the first conditional update affects exactly one row and wins,
while the second affects zero rows and yields nothing. -/
theorem claim_one_job_exclusive :
    (∀ (jobs : List JobRec) (now : Int) (job : JobRec),
      selectOldestQueued jobs = some job →
      ((_claim_one_job jobs now).2.isSome ↔ (cond_claim_update jobs job.id now).2 = 1)) ∧
    (∀ (jobs : List JobRec) (X : JobRec) (now1 now2 : Int),
      (jobs.map fun j => j.id).Nodup → selectOldestQueued jobs = some X →
      (cond_claim_update jobs X.id now1).2 = 1 ∧
      (claimAfterSelect jobs X now1).2.isSome = true ∧
      (claimAfterSelect (claimAfterSelect jobs X now1).1 X now2).2 = none) := by
  have hmemMap : ∀ (jobs : List JobRec) (X : JobRec) (now : Int), X ∈ jobs →
      (lookupJob (cond_claim_update jobs X.id now).1 X.id).isSome = true := by
    intro jobs X now hX
    show (lookupBy (fun j => j.id) (jobs.map (claimUpd X.id now)) X.id).isSome = true
    apply lookupBy_isSome_of_mem (fun j => j.id)
      (List.mem_map_of_mem (claimUpd X.id now) hX)
    unfold claimUpd
    split <;> rfl
  constructor
  · intro jobs now job hsel
    obtain ⟨hmem, _⟩ := selectOldestQueued_mem hsel
    have hstep : _claim_one_job jobs now = claimAfterSelect jobs job now := by
      unfold _claim_one_job
      rw [hsel]
    rw [hstep]
    unfold claimAfterSelect
    by_cases h1 : ((cond_claim_update jobs job.id now).2 == 1) = true
    · rw [if_pos h1]
      rw [beq_iff_eq] at h1
      simpa [hmemMap jobs job now hmem] using h1
    · rw [if_neg h1]
      rw [beq_iff_eq] at h1
      simp [h1]
  · intro jobs X now1 now2 hnodup hsel
    obtain ⟨hmem, hq⟩ := selectOldestQueued_mem hsel
    have h1 : (cond_claim_update jobs X.id now1).2 = 1 :=
      claim_filter_singleton jobs X hnodup hmem hq
    refine ⟨h1, ?_, ?_⟩
    · unfold claimAfterSelect
      rw [if_pos (by rw [h1]; rfl)]
      exact hmemMap jobs X now1 hmem
    · have ha1 : (claimAfterSelect jobs X now1).1 = (cond_claim_update jobs X.id now1).1 := by
        unfold claimAfterSelect
        by_cases hc : ((cond_claim_update jobs X.id now1).2 == 1) = true
        · rw [if_pos hc]
        · rw [if_neg hc]
      rw [ha1]
      unfold claimAfterSelect
      rw [if_neg ?hne]
      case hne =>
        rw [show (cond_claim_update (cond_claim_update jobs X.id now1).1 X.id now2).2 =
            ((cond_claim_update jobs X.id now1).1.filter
              fun j => j.id == X.id && j.status == "queued").length from rfl,
          claim_filter_after_update]
        decide

/-- A queued job. -/
def jobC5 : JobRec :=
  { id := 1, task_id := "t1", task_type := "orders", status := "queued",
    orders_filename := some "o.xlsx", aftersales_filename := none,
    picked_at := none, created_at := 1, updated_at := 1 }

/-- A queue with two queued jobs; `jobC5` is the oldest. -/
def jobsC5 : List JobRec :=
  [jobC5,
   { id := 2, task_id := "t2", task_type := "all", status := "queued",
     orders_filename := some "o2.xlsx", aftersales_filename := some "a2.xlsx",
     picked_at := none, created_at := 2, updated_at := 2 }]

/-- C5 witness: the theorem applied to the concrete queue `jobsC5`. -/
theorem claim_one_job_exclusive_witness :
    ((_claim_one_job jobsC5 5).2.isSome ↔ (cond_claim_update jobsC5 jobC5.id 5).2 = 1) ∧
    ((cond_claim_update jobsC5 jobC5.id 5).2 = 1 ∧
      (claimAfterSelect jobsC5 jobC5 5).2.isSome = true ∧
      (claimAfterSelect (claimAfterSelect jobsC5 jobC5 5).1 jobC5 6).2 = none) :=
  ⟨claim_one_job_exclusive.1 jobsC5 5 jobC5 (by decide),
    claim_one_job_exclusive.2 jobsC5 jobC5 5 6 (by decide) (by decide)⟩

/-! ### C8: `_process_job` failure handling -/

/-- `_update_task`: patch the task with the given id; silently a no-op when
the task does not exist. -/
def updateTask (w : World) (tid : String) (f : TaskRec → TaskRec) : World :=
  { w with tasks := updateFirstBy (fun t => t.task_id) tid f w.tasks }

/-- `_resolve_paths`. -/
def resolve_paths (upload_dir : String) (task_type : String)
    (orders_filename aftersales_filename : Option String) :
    Option String × Option String :=
  let orders_path := orders_filename.map fun f => upload_dir ++ "/" ++ f
  let aftersales_path := aftersales_filename.map fun f => upload_dir ++ "/" ++ f
  if task_type = "orders" then (orders_path, none)
  else if task_type = "aftersales" then (none, aftersales_path)
  else if task_type = "all" then (orders_path, aftersales_path)
  else (none, none)

/-- What happens inside the completion-marking region of the `try` block
(the task/job `completed` updates, the final commit and
`_cleanup_old_tasks`): either everything succeeds, or a store/commit
exception is raised with message `e` after `steps` of the completion
writes have taken effect.  An exception inside `_cleanup_old_tasks` rolls
its uncommitted deletes back, so at most the two marking writes survive
into the handler; `steps` larger than 2 behaves like 2. -/
inductive CompletionOutcome where
  | ok
  | failAfter (steps : Nat) (e : String)
  deriving Repr, Inhabited

/-- The outcomes of the fallible operations of one job: the two Excel
imports (file IO + store writes), the statistics recomputation, and the
completion-marking writes.  An `error` value models the operation raising
an exception with that message. -/
structure StageOutcomes where
  import_orders_result : Except String ExcelImport.ImpStats
  import_aftersales_result : Except String ExcelImport.ImpStats
  recompute_result : Except String Nat
  completion_result : CompletionOutcome
  deriving Repr, Inhabited

/-- The order-import stage of the `try` block (progress update, the
missing-file check, the import itself, the stats update). -/
def ordersStage (oc : StageOutcomes) (w : World) (job : JobRec)
    (orders_path : Option String) : World ⊕ (World × String) :=
  if job.task_type = "orders" ∨ job.task_type = "all" then
    match orders_path with
    | none => .inr (w, "缺少 orders 文件")
    | some _ =>
      let w1 := updateTask w job.task_id fun t =>
        { t with progress := some "排队结束，正在导入订单..." }
      match oc.import_orders_result with
      | .error e => .inr (w1, e)
      | .ok s => .inl (updateTask w1 job.task_id fun t => { t with order_stats := some s })
  else .inl w

/-- The after-sale-import stage. -/
def aftersalesStage (oc : StageOutcomes) (w : World) (job : JobRec)
    (aftersales_path : Option String) : World ⊕ (World × String) :=
  if job.task_type = "aftersales" ∨ job.task_type = "all" then
    match aftersales_path with
    | none => .inr (w, "缺少 aftersales 文件")
    | some _ =>
      let w1 := updateTask w job.task_id fun t =>
        { t with progress := some "正在导入售后单..." }
      match oc.import_aftersales_result with
      | .error e => .inr (w1, e)
      | .ok s =>
        .inl (updateTask w1 job.task_id fun t => { t with aftersale_stats := some s })
  else .inl w

/-- The statistics recomputation stage. -/
def recomputeStage (oc : StageOutcomes) (w : World) (job : JobRec) :
    (World × Nat) ⊕ (World × String) :=
  let w1 := updateTask w job.task_id fun t => { t with progress := some "正在重新计算统计..." }
  match oc.recompute_result with
  | .error e => .inr (w1, e)
  | .ok n => .inl (w1, n)

/-- The whole `try` body up to (not including) the completion marking:
short-circuits with the first raised error. -/
def runStages (oc : StageOutcomes) (w : World) (job : JobRec)
    (paths : Option String × Option String) : (World × Nat) ⊕ (World × String) :=
  match ordersStage oc w job paths.1 with
  | .inr f => .inr f
  | .inl w1 =>
    match aftersalesStage oc w1 job paths.2 with
    | .inr f => .inr f
    | .inl w2 => recomputeStage oc w2 job

/-- `_cleanup_old_tasks`: keep the `max_tasks` most recent task records
(by `started_at`, descending) and delete the rest together with their
jobs. -/
def cleanup_old_tasks (max_tasks : Nat) (w : World) : World :=
  let sorted := w.tasks.insertionSort fun a b => a.started_at ≥ b.started_at
  if sorted.length ≤ max_tasks then w
  else
    let old_task_ids := (sorted.drop max_tasks).map fun t => t.task_id
    { jobs := w.jobs.filter fun j => !(old_task_ids.contains j.task_id)
      tasks := w.tasks.filter fun t => !(old_task_ids.contains t.task_id) }

/-- The `except` handler: mark the ImportTask and the ImportJob `failed`
with the captured error text. -/
def markFailed (w : World) (job : JobRec) (e : String) (now : Int) : World :=
  let w1 := updateTask w job.task_id fun t =>
    { t with status := "failed", error := some e, progress := some "失败" }
  { w1 with jobs := w1.jobs.map (fun j =>
      if j.id == job.id then { j with status := "failed", updated_at := now } else j) }

/-- The two completion-marking writes of the `try` tail, in program
order: the ImportTask `completed` update, then the ImportJob `completed`
update. -/
def completionSteps (now : Int) (n : Nat) (job : JobRec) : List (World → World) :=
  [fun w => updateTask w job.task_id fun t =>
      { t with
        status := "completed"
        progress := some "完成"
        sku_stats_count := some n
        completed_at := some now },
   fun w => { w with jobs := w.jobs.map (fun j =>
      if j.id == job.id then { j with status := "completed", updated_at := now } else j) }]

/-- Apply a prefix of the completion writes in order. -/
def applySteps (fs : List (World → World)) (w : World) : World :=
  fs.foldl (fun w f => f w) w

/-- The success tail of the `try` block: both completion-marking writes,
then prune old task records. -/
def markCompleted (w : World) (job : JobRec) (n : Nat) (now : Int) : World :=
  cleanup_old_tasks 15 (applySteps (completionSteps now n job) w)

/-- `ImportWorker._process_job`.  The completion-marking region sits
inside the source's `try`, so its exception (after `steps` of the
completion writes took effect) also lands in the `failed` handler. -/
def process_job (oc : StageOutcomes) (upload_dir : String) (now : Int)
    (w : World) (job : JobRec) : World :=
  let paths := resolve_paths upload_dir job.task_type job.orders_filename
    job.aftersales_filename
  match runStages oc w job paths with
  | .inr (wf, e) => markFailed wf job e now
  | .inl (w3, n) =>
    match oc.completion_result with
    | .ok => markCompleted w3 job n now
    | .failAfter k e =>
      markFailed (applySteps ((completionSteps now n job).take k) w3) job e now

/-- The error message with which the `try` body of `_process_job` raises,
if it does: the first stage error, or the completion-marking error when
all stages succeeded. -/
def jobFailure (oc : StageOutcomes) (w : World) (job : JobRec)
    (paths : Option String × Option String) : Option String :=
  match runStages oc w job paths with
  | .inr (_, e) => some e
  | .inl _ =>
    match oc.completion_result with
    | .ok => none
    | .failAfter _ e => some e

theorem lookupTask_updateTask_isSome (w : World) (tid0 tid : String)
    (f : TaskRec → TaskRec) (hf : ∀ t, (f t).task_id = t.task_id) :
    (lookupTask (updateTask w tid0 f).tasks tid).isSome =
      (lookupTask w.tasks tid).isSome :=
  lookupBy_updateFirstBy_isSome (fun t : TaskRec => t.task_id) w.tasks tid tid0 f hf

/-- Case analysis of the order-import stage: whichever branch it takes,
tasks keep their presence and the jobs table is untouched. -/
theorem ordersStage_cases (oc : StageOutcomes) (job : JobRec) (w0 : World)
    (p : Option String) :
    (∀ w1, ordersStage oc w0 job p = .inl w1 →
      (∀ tid, (lookupTask w1.tasks tid).isSome = (lookupTask w0.tasks tid).isSome) ∧
      w1.jobs = w0.jobs) ∧
    (∀ w1 e1, ordersStage oc w0 job p = .inr (w1, e1) →
      (∀ tid, (lookupTask w1.tasks tid).isSome = (lookupTask w0.tasks tid).isSome) ∧
      w1.jobs = w0.jobs) := by
  unfold ordersStage
  split
  · cases p with
    | none =>
      refine ⟨fun w1 h1 => by simp at h1, fun w1 e1 h1 => ?_⟩
      simp only [Sum.inr.injEq, Prod.mk.injEq] at h1
      rw [← h1.1]
      exact ⟨fun _ => rfl, rfl⟩
    | some _ =>
      cases hoc : oc.import_orders_result with
      | error e2 =>
        refine ⟨fun w1 h1 => by simp [hoc] at h1, fun w1 e1 h1 => ?_⟩
        simp only [hoc, Sum.inr.injEq, Prod.mk.injEq] at h1
        rw [← h1.1]
        exact ⟨fun tid => lookupTask_updateTask_isSome w0 _ tid _ (fun _ => rfl), rfl⟩
      | ok s =>
        refine ⟨fun w1 h1 => ?_, fun w1 e1 h1 => by simp [hoc] at h1⟩
        simp only [hoc, Sum.inl.injEq] at h1
        rw [← h1]
        constructor
        · intro tid
          refine (lookupTask_updateTask_isSome _ _ tid _ ?_).trans
            (lookupTask_updateTask_isSome _ _ tid _ ?_)
          all_goals exact fun _ => rfl
        · rfl
  · exact ⟨fun w1 h1 => by simp only [Sum.inl.injEq] at h1; rw [← h1]; exact ⟨fun _ => rfl, rfl⟩,
      fun w1 e1 h1 => by simp at h1⟩

/-- Case analysis of the after-sale-import stage: whichever branch it
takes, tasks keep their presence and the jobs table is untouched. -/
theorem aftersalesStage_cases (oc : StageOutcomes) (job : JobRec) (w0 : World)
    (p : Option String) :
    (∀ w1, aftersalesStage oc w0 job p = .inl w1 →
      (∀ tid, (lookupTask w1.tasks tid).isSome = (lookupTask w0.tasks tid).isSome) ∧
      w1.jobs = w0.jobs) ∧
    (∀ w1 e1, aftersalesStage oc w0 job p = .inr (w1, e1) →
      (∀ tid, (lookupTask w1.tasks tid).isSome = (lookupTask w0.tasks tid).isSome) ∧
      w1.jobs = w0.jobs) := by
  unfold aftersalesStage
  split
  · cases p with
    | none =>
      refine ⟨fun w1 h1 => by simp at h1, fun w1 e1 h1 => ?_⟩
      simp only [Sum.inr.injEq, Prod.mk.injEq] at h1
      rw [← h1.1]
      exact ⟨fun _ => rfl, rfl⟩
    | some _ =>
      cases hoc : oc.import_aftersales_result with
      | error e2 =>
        refine ⟨fun w1 h1 => by simp [hoc] at h1, fun w1 e1 h1 => ?_⟩
        simp only [hoc, Sum.inr.injEq, Prod.mk.injEq] at h1
        rw [← h1.1]
        exact ⟨fun tid => lookupTask_updateTask_isSome w0 _ tid _ (fun _ => rfl), rfl⟩
      | ok s =>
        refine ⟨fun w1 h1 => ?_, fun w1 e1 h1 => by simp [hoc] at h1⟩
        simp only [hoc, Sum.inl.injEq] at h1
        rw [← h1]
        constructor
        · intro tid
          refine (lookupTask_updateTask_isSome _ _ tid _ ?_).trans
            (lookupTask_updateTask_isSome _ _ tid _ ?_)
          all_goals exact fun _ => rfl
        · rfl
  · exact ⟨fun w1 h1 => by simp only [Sum.inl.injEq] at h1; rw [← h1]; exact ⟨fun _ => rfl, rfl⟩,
      fun w1 e1 h1 => by simp at h1⟩

/-- The stage steps never delete tasks or change task ids or jobs:
failure case. -/
theorem runStages_inr_preserves {oc : StageOutcomes} {w : World} {job : JobRec}
    {paths : Option String × Option String} {wf : World} {e : String}
    (h : runStages oc w job paths = .inr (wf, e)) :
    (∀ tid, (lookupTask wf.tasks tid).isSome = (lookupTask w.tasks tid).isSome) ∧
    wf.jobs = w.jobs := by
  unfold runStages at h
  cases h1 : ordersStage oc w job paths.1 with
  | inr f =>
    rw [h1] at h
    simp only [Sum.inr.injEq] at h
    obtain ⟨hp, hj⟩ := (ordersStage_cases oc job w paths.1).2 f.1 f.2 (by rw [h1])
    rw [h] at hp hj
    exact ⟨hp, hj⟩
  | inl w1 =>
    rw [h1] at h
    dsimp only at h
    obtain ⟨hp1, hj1⟩ := (ordersStage_cases oc job w paths.1).1 w1 h1
    cases h2 : aftersalesStage oc w1 job paths.2 with
    | inr f =>
      rw [h2] at h
      simp only [Sum.inr.injEq] at h
      obtain ⟨hp2, hj2⟩ := (aftersalesStage_cases oc job w1 paths.2).2 f.1 f.2 (by rw [h2])
      rw [h] at hp2 hj2
      exact ⟨fun tid => (hp2 tid).trans (hp1 tid), hj2.trans hj1⟩
    | inl w2 =>
      rw [h2] at h
      dsimp only at h
      obtain ⟨hp2, hj2⟩ := (aftersalesStage_cases oc job w1 paths.2).1 w2 h2
      unfold recomputeStage at h
      cases hoc : oc.recompute_result with
      | error e2 =>
        rw [hoc] at h
        simp only [Sum.inr.injEq, Prod.mk.injEq] at h
        rw [← h.1]
        constructor
        · intro tid
          refine (lookupTask_updateTask_isSome _ _ tid _ ?_).trans
            ((hp2 tid).trans (hp1 tid))
          exact fun _ => rfl
        · exact hj2.trans hj1
      | ok n =>
        rw [hoc] at h
        simp at h

/-- The stage steps never delete tasks or change task ids or jobs:
success case, so the completion marking starts from a world where the
paired task is still present. -/
theorem runStages_inl_preserves {oc : StageOutcomes} {w : World} {job : JobRec}
    {paths : Option String × Option String} {w3 : World} {n : Nat}
    (h : runStages oc w job paths = .inl (w3, n)) :
    (∀ tid, (lookupTask w3.tasks tid).isSome = (lookupTask w.tasks tid).isSome) ∧
    w3.jobs = w.jobs := by
  unfold runStages at h
  cases h1 : ordersStage oc w job paths.1 with
  | inr f =>
    rw [h1] at h
    simp at h
  | inl w1 =>
    rw [h1] at h
    dsimp only at h
    obtain ⟨hp1, hj1⟩ := (ordersStage_cases oc job w paths.1).1 w1 h1
    cases h2 : aftersalesStage oc w1 job paths.2 with
    | inr f =>
      rw [h2] at h
      simp at h
    | inl w2 =>
      rw [h2] at h
      dsimp only at h
      obtain ⟨hp2, hj2⟩ := (aftersalesStage_cases oc job w1 paths.2).1 w2 h2
      unfold recomputeStage at h
      cases hoc : oc.recompute_result with
      | error e2 =>
        rw [hoc] at h
        simp at h
      | ok m =>
        rw [hoc] at h
        simp only [Sum.inl.injEq, Prod.mk.injEq] at h
        rw [← h.1]
        constructor
        · intro tid
          refine (lookupTask_updateTask_isSome _ _ tid _ ?_).trans
            ((hp2 tid).trans (hp1 tid))
          exact fun _ => rfl
        · exact hj2.trans hj1

/-- Any prefix of the completion writes keeps every task present: the
first write is an in-place task update, the second touches only jobs. -/
theorem completionSteps_take_preserves (now : Int) (n : Nat) (job : JobRec)
    (w : World) (k : Nat) (tid : String) :
    (lookupTask (applySteps ((completionSteps now n job).take k) w).tasks tid).isSome =
      (lookupTask w.tasks tid).isSome := by
  rcases k with _ | (_ | m)
  · rfl
  · exact lookupTask_updateTask_isSome w job.task_id tid _ (fun _ => rfl)
  · have h2 : (completionSteps now n job).take (m + 2) = completionSteps now n job := by
      simp [completionSteps]
    rw [h2]
    exact lookupTask_updateTask_isSome w job.task_id tid _ (fun _ => rfl)

/-- The `except` handler: starting from any world where the paired task is
still present, it leaves that task `failed` with the error text and every
job row of the job's id `failed`. -/
theorem markFailed_spec (wx : World) (job : JobRec) (e : String) (now : Int)
    (hsome : (lookupTask wx.tasks job.task_id).isSome = true) :
    (∃ t, lookupTask (markFailed wx job e now).tasks job.task_id = some t ∧
      t.status = "failed" ∧ t.error = some e) ∧
    (∀ j ∈ (markFailed wx job e now).jobs, j.id = job.id →
      j.status = "failed" ∧ j.status ≠ "queued") := by
  obtain ⟨t0, ht0⟩ := Option.isSome_iff_exists.mp hsome
  constructor
  · have hlk : lookupTask (markFailed wx job e now).tasks job.task_id =
        some { t0 with status := "failed", error := some e, progress := some "失败" } :=
      lookupBy_updateFirstBy_self (fun t : TaskRec => t.task_id)
        (fun t => { t with status := "failed", error := some e, progress := some "失败" })
        ht0 rfl
    exact ⟨_, hlk, rfl, rfl⟩
  · intro j hj hid
    have hj2 : j ∈ wx.jobs.map (fun j =>
        if j.id == job.id then { j with status := "failed", updated_at := now } else j) := hj
    obtain ⟨j0, _, rfl⟩ := List.mem_map.mp hj2
    by_cases hc : (j0.id == job.id) = true
    · rw [if_pos hc]
      exact ⟨rfl, fun hq => by simp at hq⟩
    · rw [if_neg hc] at hid ⊢
      rw [beq_iff_eq] at hc
      exact absurd hid hc

/-- C8: if an exception is raised at any modelled point of
`_process_job`'s `try` block — missing file, order import, after-sale
import, statistics recomputation, or the completion marking itself — the
`except` handler leaves the paired ImportTask `failed` carrying the
exception text, every ImportJob row with the job's id `failed`, and in
particular the job is not re-queued (its status is not `queued`, so the
claim query never selects it again). -/
theorem process_job_failure (oc : StageOutcomes) (upload_dir : String) (now : Int)
    (w : World) (job : JobRec) (e : String)
    (hfail : jobFailure oc w job
      (resolve_paths upload_dir job.task_type job.orders_filename
        job.aftersales_filename) = some e)
    (htask : (lookupTask w.tasks job.task_id).isSome = true) :
    (∃ t, lookupTask (process_job oc upload_dir now w job).tasks job.task_id = some t ∧
      t.status = "failed" ∧ t.error = some e) ∧
    (∀ j ∈ (process_job oc upload_dir now w job).jobs, j.id = job.id →
      j.status = "failed" ∧ j.status ≠ "queued") := by
  unfold jobFailure at hfail
  cases hrun : runStages oc w job
      (resolve_paths upload_dir job.task_type job.orders_filename
        job.aftersales_filename) with
  | inr f =>
    obtain ⟨wf, e1⟩ := f
    rw [hrun] at hfail
    dsimp only at hfail
    injection hfail with he
    subst he
    have hpp : process_job oc upload_dir now w job = markFailed wf job e1 now := by
      unfold process_job
      dsimp only
      rw [hrun]
    obtain ⟨hiso, _⟩ := runStages_inr_preserves hrun
    rw [hpp]
    apply markFailed_spec
    rw [hiso]
    exact htask
  | inl p =>
    obtain ⟨w3, n⟩ := p
    rw [hrun] at hfail
    dsimp only at hfail
    cases hc : oc.completion_result with
    | ok =>
      rw [hc] at hfail
      simp at hfail
    | failAfter k e1 =>
      rw [hc] at hfail
      dsimp only at hfail
      injection hfail with he
      subst he
      have hpp : process_job oc upload_dir now w job =
          markFailed (applySteps ((completionSteps now n job).take k) w3) job e1 now := by
        unfold process_job
        dsimp only
        rw [hrun]
        dsimp only
        rw [hc]
      obtain ⟨hiso, _⟩ := runStages_inl_preserves hrun
      rw [hpp]
      apply markFailed_spec
      rw [completionSteps_take_preserves, hiso]
      exact htask

/-- A world holding the job `jobC5` and its paired task. -/
def worldC8 : World :=
  { jobs := [jobC5],
    tasks := [{ task_id := "t1", status := "processing", progress := none,
                order_stats := none, aftersale_stats := none, sku_stats_count := none,
                error := none, started_at := 0, completed_at := none }] }

/-- Outcomes where every stage succeeds but the completion marking raises
after the task `completed` write (the job update or final commit fails). -/
def ocC8 : StageOutcomes :=
  { import_orders_result := .ok ⟨1, 1, 0, 0⟩
    import_aftersales_result := .ok ⟨0, 0, 0, 0⟩
    recompute_result := .ok 3
    completion_result := .failAfter 1 "commit failed" }

/-- C8 witness: the theorem applied to a concrete job whose completion
marking raises after all stages succeeded. -/
theorem process_job_failure_witness :
    (∃ t, lookupTask (process_job ocC8 "up" 7 worldC8 jobC5).tasks jobC5.task_id = some t ∧
      t.status = "failed" ∧ t.error = some "commit failed") ∧
    (∀ j ∈ (process_job ocC8 "up" 7 worldC8 jobC5).jobs, j.id = jobC5.id →
      j.status = "failed" ∧ j.status ≠ "queued") :=
  process_job_failure ocC8 "up" 7 worldC8 jobC5 "commit failed" rfl rfl

end Worker

namespace Logistics

/-! ### `app/api/logistics.py` — `batch_check_logistics`, the
reconciliation scanner.

Only the pagination skeleton is deterministic; the business eligibility
predicate (tracking code present, shipped, unsigned, check-interval
expired — re-evaluated each batch against wall-clock time and concurrent
writers) is an oracle `elig : batch-index → row-id → Bool`, and the
per-row processing result (the interval double-check skip, a successful
remote call, or a caught per-row exception) is an oracle
`oc : batch-index → row-id → RowOutcome`.  Row mutations never change the
primary key `id`, so the id population `ids` is fixed. -/

/-- What happens when the scanner iterates one row. -/
inductive RowOutcome
  | skip
  | ok (is_signed : Bool)
  | fail
  deriving DecidableEq, Repr, Inhabited

/-- The scanner's loop state. -/
structure ScanState where
  last_id : Nat
  checked : Nat
  signed : Nat
  skipped : Nat
  deriving DecidableEq, Repr, Inhabited

/-- `batch_size = 500`. -/
def batch_size : Nat := 500

/-- `SELECT ... WHERE id > last_id AND <eligibility> ORDER BY id ASC
LIMIT n`. -/
def selectBatch (ids : List Nat) (elig : Nat → Nat → Bool) (k last n : Nat) :
    List Nat :=
  ((ids.filter fun i => decide (last < i) && elig k i).insertionSort (· ≤ ·)).take n

/-- The `for order in orders` body: the cursor update
`last_id = max(last_id, order.id)` always runs first; then the row is
skipped, checked (with the mid-batch `limit` break), or left unchanged on
a caught exception.  Returns the final state and the list of iterated row
ids in order. -/
def runRows (oc : Nat → Nat → RowOutcome) (k lim : Nat) :
    ScanState → List Nat → ScanState × List Nat
  | st, [] => (st, [])
  | st, i :: rest =>
    match oc k i with
    | .skip =>
      let r := runRows oc k lim
        { st with last_id := max st.last_id i, skipped := st.skipped + 1 } rest
      (r.1, i :: r.2)
    | .fail =>
      let r := runRows oc k lim { st with last_id := max st.last_id i } rest
      (r.1, i :: r.2)
    | .ok sg =>
      let st2 : ScanState :=
        { st with
          last_id := max st.last_id i
          checked := st.checked + 1
          signed := st.signed + (if sg then 1 else 0) }
      if lim ≠ 0 ∧ lim ≤ st2.checked then (st2, [i])
      else
        let r := runRows oc k lim st2 rest
        (r.1, i :: r.2)

/-- The `while True` scan loop.  `fuel` bounds the number of iterations
(the properties below hold for every value, hence for every finite prefix
of the loop). -/
def currentBatchSize (lim checked : Nat) : Nat :=
  if lim ≠ 0 then min batch_size (lim - checked) else batch_size

def scanLoop (ids : List Nat) (elig : Nat → Nat → Bool)
    (oc : Nat → Nat → RowOutcome) (lim : Nat) :
    Nat → ScanState → Nat → ScanState × List Nat
  | 0, st, _ => (st, [])
  | fuel + 1, st, k =>
    if lim ≠ 0 ∧ lim ≤ st.checked then (st, [])
    else
      if (selectBatch ids elig k st.last_id (currentBatchSize lim st.checked)).isEmpty then
        (st, [])
      else
        ((scanLoop ids elig oc lim fuel
            (runRows oc k lim st
              (selectBatch ids elig k st.last_id (currentBatchSize lim st.checked))).1
            (k + 1)).1,
          (runRows oc k lim st
            (selectBatch ids elig k st.last_id (currentBatchSize lim st.checked))).2 ++
          (scanLoop ids elig oc lim fuel
            (runRows oc k lim st
              (selectBatch ids elig k st.last_id (currentBatchSize lim st.checked))).1
            (k + 1)).2)

/-- The whole scan of `batch_check_logistics`, starting from cursor 0. -/
def batch_check_scan (ids : List Nat) (elig : Nat → Nat → Bool)
    (oc : Nat → Nat → RowOutcome) (lim fuel : Nat) : ScanState × List Nat :=
  scanLoop ids elig oc lim fuel ⟨0, 0, 0, 0⟩ 0

theorem selectBatch_sorted (ids : List Nat) (elig : Nat → Nat → Bool)
    (k last n : Nat) (hnodup : ids.Nodup) :
    (selectBatch ids elig k last n).Sorted (· < ·) := by
  have hnd : ((ids.filter fun i => decide (last < i) && elig k i).insertionSort
      (· ≤ ·)).Nodup :=
    ((List.perm_insertionSort _ _).nodup_iff).mpr
      (hnodup.filter fun i => decide (last < i) && elig k i)
  have hs : ((ids.filter fun i => decide (last < i) && elig k i).insertionSort
      (· ≤ ·)).Sorted (· ≤ ·) := List.sorted_insertionSort _ _
  exact List.Pairwise.sublist (List.take_sublist n _) (hs.lt_of_le hnd)

theorem selectBatch_gt (ids : List Nat) (elig : Nat → Nat → Bool)
    (k last n : Nat) : ∀ i ∈ selectBatch ids elig k last n, last < i := by
  intro i hi
  have h1 : i ∈ (ids.filter fun i => decide (last < i) && elig k i).insertionSort
      (· ≤ ·) := List.mem_of_mem_take hi
  rw [(List.perm_insertionSort _ _).mem_iff, List.mem_filter] at h1
  have h2 := h1.2
  simp only [Bool.and_eq_true, decide_eq_true_eq] at h2
  exact h2.1

/-- Specification of one batch iteration: the iterated ids are strictly
increasing and above the entry cursor, and the exit cursor is the running
maximum of the entry cursor and the iterated ids. -/
theorem runRows_spec (oc : Nat → Nat → RowOutcome) (k lim : Nat)
    (st : ScanState) (batch : List Nat) (hsort : batch.Sorted (· < ·))
    (hgt : ∀ i ∈ batch, st.last_id < i) :
    (runRows oc k lim st batch).2.Sorted (· < ·) ∧
    (∀ i ∈ (runRows oc k lim st batch).2, st.last_id < i) ∧
    (runRows oc k lim st batch).1.last_id =
      (runRows oc k lim st batch).2.foldl max st.last_id ∧
    st.last_id ≤ (runRows oc k lim st batch).1.last_id ∧
    (∀ i ∈ (runRows oc k lim st batch).2, i ≤ (runRows oc k lim st batch).1.last_id) := by
  induction batch generalizing st with
  | nil =>
    simp [runRows]
  | cons i rest ih =>
    rw [List.sorted_cons] at hsort
    obtain ⟨hi_lt, hrest_sorted⟩ := hsort
    have hst_i : st.last_id < i := hgt i (List.mem_cons_self _ _)
    have hmax : max st.last_id i = i := Nat.max_eq_right (Nat.le_of_lt hst_i)
    have hcont : ∀ (st2 : ScanState), st2.last_id = i →
        (runRows oc k lim st2 rest).2.Sorted (· < ·) ∧
        (∀ j ∈ (runRows oc k lim st2 rest).2, i < j) ∧
        (runRows oc k lim st2 rest).1.last_id =
          (runRows oc k lim st2 rest).2.foldl max i ∧
        i ≤ (runRows oc k lim st2 rest).1.last_id ∧
        (∀ j ∈ (runRows oc k lim st2 rest).2, j ≤ (runRows oc k lim st2 rest).1.last_id) := by
      intro st2 hlast
      have h1 := ih st2 hrest_sorted (fun j hj => by rw [hlast]; exact hi_lt j hj)
      rw [hlast] at h1
      exact h1
    have hout : ∀ (s1 : ScanState) (tr : List Nat),
        (tr.Sorted (· < ·) ∧ (∀ j ∈ tr, i < j) ∧
          s1.last_id = tr.foldl max i ∧ i ≤ s1.last_id ∧
          (∀ j ∈ tr, j ≤ s1.last_id)) →
        ((i :: tr).Sorted (· < ·) ∧
          (∀ j ∈ i :: tr, st.last_id < j) ∧
          s1.last_id = (i :: tr).foldl max st.last_id ∧
          st.last_id ≤ s1.last_id ∧
          (∀ j ∈ i :: tr, j ≤ s1.last_id)) := by
      rintro s1 tr ⟨hs, hgt2, hfold, hle, hub⟩
      refine ⟨List.sorted_cons.mpr ⟨hgt2, hs⟩, ?_, ?_, ?_, ?_⟩
      · intro j hj
        rcases List.mem_cons.mp hj with rfl | hj2
        · exact hst_i
        · exact Nat.lt_trans hst_i (hgt2 j hj2)
      · rw [List.foldl_cons, hmax]
        exact hfold
      · exact Nat.le_trans (Nat.le_of_lt hst_i) hle
      · intro j hj
        rcases List.mem_cons.mp hj with rfl | hj2
        · exact hle
        · exact hub j hj2
    cases hoc : oc k i with
    | skip =>
      simp only [runRows, hoc]
      exact hout _ _ (hcont _ (by simp [hmax]))
    | fail =>
      simp only [runRows, hoc]
      exact hout _ _ (hcont _ (by simp [hmax]))
    | ok sg =>
      simp only [runRows, hoc]
      by_cases hbrk : lim ≠ 0 ∧ lim ≤ st.checked + 1
      · rw [if_pos (by simpa using hbrk)]
        refine ⟨List.sorted_singleton i, ?_, ?_, ?_, ?_⟩
        · intro j hj
          rcases List.mem_cons.mp hj with rfl | hj2
          · exact hst_i
          · exact absurd hj2 (List.not_mem_nil j)
        · simp [hmax]
        · simp only [List.foldl_cons, List.foldl_nil, hmax]
          exact Nat.le_of_lt hst_i
        · intro j hj
          rcases List.mem_cons.mp hj with rfl | hj2
          · simp [hmax]
          · exact absurd hj2 (List.not_mem_nil j)
      · rw [if_neg (by simpa using hbrk)]
        exact hout _ _ (hcont _ (by simp [hmax]))

/-- Specification of the whole scan loop from any state. -/
theorem scanLoop_spec (ids : List Nat) (elig : Nat → Nat → Bool)
    (oc : Nat → Nat → RowOutcome) (lim : Nat) (hnodup : ids.Nodup) :
    ∀ (fuel : Nat) (st : ScanState) (k : Nat),
    (scanLoop ids elig oc lim fuel st k).2.Sorted (· < ·) ∧
    (∀ i ∈ (scanLoop ids elig oc lim fuel st k).2, st.last_id < i) ∧
    (scanLoop ids elig oc lim fuel st k).1.last_id =
      (scanLoop ids elig oc lim fuel st k).2.foldl max st.last_id ∧
    st.last_id ≤ (scanLoop ids elig oc lim fuel st k).1.last_id ∧
    (∀ i ∈ (scanLoop ids elig oc lim fuel st k).2,
      i ≤ (scanLoop ids elig oc lim fuel st k).1.last_id) := by
  intro fuel
  induction fuel with
  | zero =>
    intro st k
    simp [scanLoop]
  | succ fuel ih =>
    intro st k
    by_cases hstop : lim ≠ 0 ∧ lim ≤ st.checked
    · simp [scanLoop, hstop]
    · by_cases hempty : (selectBatch ids elig k st.last_id
          (currentBatchSize lim st.checked)).isEmpty
      · simp [scanLoop, hstop, hempty]
      · have hred : scanLoop ids elig oc lim (fuel + 1) st k =
            ((scanLoop ids elig oc lim fuel
                (runRows oc k lim st
                  (selectBatch ids elig k st.last_id (currentBatchSize lim st.checked))).1
                (k + 1)).1,
              (runRows oc k lim st
                (selectBatch ids elig k st.last_id (currentBatchSize lim st.checked))).2 ++
              (scanLoop ids elig oc lim fuel
                (runRows oc k lim st
                  (selectBatch ids elig k st.last_id (currentBatchSize lim st.checked))).1
                (k + 1)).2) := by
          simp only [scanLoop]
          rw [if_neg hstop, if_neg (by simpa using hempty)]
        rw [hred]
        obtain ⟨hs1, hgt1, hfold1, hle1, hub1⟩ :=
          runRows_spec oc k lim st
            (selectBatch ids elig k st.last_id (currentBatchSize lim st.checked))
            (selectBatch_sorted ids elig k st.last_id _ hnodup)
            (selectBatch_gt ids elig k st.last_id _)
        obtain ⟨hs2, hgt2, hfold2, hle2, hub2⟩ :=
          ih (runRows oc k lim st
            (selectBatch ids elig k st.last_id (currentBatchSize lim st.checked))).1 (k + 1)
        refine ⟨?_, ?_, ?_, ?_, ?_⟩
        · exact List.pairwise_append.mpr
            ⟨hs1, hs2, fun x hx y hy => Nat.lt_of_le_of_lt (hub1 x hx) (hgt2 y hy)⟩
        · intro i hi
          rcases List.mem_append.mp hi with hl | hr
          · exact hgt1 i hl
          · exact Nat.lt_of_le_of_lt hle1 (hgt2 i hr)
        · rw [List.foldl_append, ← hfold1]
          exact hfold2
        · exact Nat.le_trans hle1 hle2
        · intro i hi
          rcases List.mem_append.mp hi with hl | hr
          · exact Nat.le_trans (hub1 i hl) hle2
          · exact hub2 i hr

/-- C9: within a single scan invocation (any fuel, any limit, any
eligibility/outcome history) the iterated row ids are strictly
increasing, hence no order row is processed more than once; the final
cursor is the running maximum of all ids seen (so it never moves
backward and ends at the largest id processed). -/
theorem batch_check_scan_no_duplicates (ids : List Nat)
    (elig : Nat → Nat → Bool) (oc : Nat → Nat → RowOutcome) (lim fuel : Nat)
    (hnodup : ids.Nodup) :
    (batch_check_scan ids elig oc lim fuel).2.Sorted (· < ·) ∧
    (batch_check_scan ids elig oc lim fuel).2.Nodup ∧
    (batch_check_scan ids elig oc lim fuel).1.last_id =
      (batch_check_scan ids elig oc lim fuel).2.foldl max 0 := by
  obtain ⟨hs, _, hfold, _, _⟩ := scanLoop_spec ids elig oc lim hnodup fuel ⟨0, 0, 0, 0⟩ 0
  exact ⟨hs, hs.nodup, hfold⟩

/-- C9 witness: a three-row table scanned with a benign oracle. -/
theorem batch_check_scan_no_duplicates_witness :
    (batch_check_scan [3, 1, 2] (fun _ _ => true) (fun _ _ => .ok false) 0 5).2.Sorted (· < ·) ∧
    (batch_check_scan [3, 1, 2] (fun _ _ => true) (fun _ _ => .ok false) 0 5).2.Nodup ∧
    (batch_check_scan [3, 1, 2] (fun _ _ => true) (fun _ _ => .ok false) 0 5).1.last_id =
      (batch_check_scan [3, 1, 2] (fun _ _ => true) (fun _ _ => .ok false) 0 5).2.foldl max 0 :=
  batch_check_scan_no_duplicates [3, 1, 2] (fun _ _ => true) (fun _ _ => .ok false) 0 5
    (by decide)

end Logistics

end DouyinWeb
